import Mathlib

/-!
Shallow embedding of the NusaBiz-BE Ledger Orchestration Engine:
the transaction service (`src/services/transaction.service.ts`), the
product service (`src/services/product.service.ts`), the repositories
(`src/repositories/*.ts`, product repository `updateStock`, business
repository `updateBalance`) and the `cancelTransaction` controller.

The backing store is modelled as an in-memory `DB` value; each
single-record repository operation is a pure function on `DB`.  Write
failures of the underlying store are injected through an `Env` of
per-record-id failure flags for the two side-effect writes the service
guards against (product-stock writes and business-balance writes).
-/

namespace NusaBiz

/-- Stock status labels from `product.model.ts` (`StockStatus`). -/
inductive StockStatus where
  | active
  | inactive
  | low
  | out
deriving DecidableEq, Repr

/-- Transaction kinds from `transaction.model.ts` (`TransactionType`). -/
inductive TransactionType where
  | Income
  | Expense
deriving DecidableEq, Repr

/-- Transaction statuses from `transaction.model.ts` (`TransactionStatus`). -/
inductive TransactionStatus where
  | pending
  | complete
  | cancel
deriving DecidableEq, Repr

/-- Product row (`product.model.ts`): the fields the core reads/writes.
`deleted` models the `deleted_at` soft-delete marker being non-null. -/
structure Product where
  id : Nat
  business_id : Nat
  name : String
  current_stock : Int
  stock_status : StockStatus
  deleted : Bool
deriving DecidableEq, Repr

/-- Business row (`business.model.ts`): the core only touches `current_balance`. -/
structure Business where
  id : Nat
  current_balance : Int
  deleted : Bool
deriving DecidableEq, Repr

/-- Transaction row (`transaction.model.ts`). -/
structure Transaction where
  id : Nat
  business_id : Nat
  ttype : TransactionType
  category : Option String
  amount : Int
  description : Option String
  status : TransactionStatus
  transaction_date : Option String
  deleted : Bool
deriving DecidableEq, Repr

/-- TransactionDetails row (`transaction-detail` model). -/
structure TransactionDetail where
  transaction_id : Nat
  product_id : Nat
  quantity : Int
  unit_price_at_transaction : Int
deriving DecidableEq, Repr

/-- The backing store: one list per table plus the id sequence for the
Transactions table. -/
structure DB where
  products : List Product
  businesses : List Business
  transactions : List Transaction
  details : List TransactionDetail
  nextTxId : Nat
deriving DecidableEq, Repr

/-- Injected write-failure oracle: `stockFail pid` makes every
`Products.updateStock` write for product `pid` fail, `balanceFail bid`
makes every `Businesses.updateBalance` write for business `bid` fail. -/
structure Env where
  stockFail : Nat → Bool
  balanceFail : Nat → Bool

/-- Environment in which every write succeeds. -/
def Env.noFail : Env := ⟨fun _ => false, fun _ => false⟩

/-! ## Data Access Facade (repositories) -/

/-- Row predicate used by every product query: id match and
`.is(deleted_at, null)`. -/
def prodKey (pid : Nat) (p : Product) : Bool := p.id == pid && !p.deleted

/-- Row predicate for business queries. -/
def bizKey (bid : Nat) (b : Business) : Bool := b.id == bid && !b.deleted

/-- Row predicate for transaction queries. -/
def txKey (txId : Nat) (t : Transaction) : Bool := t.id == txId && !t.deleted

/-- `ProductRepository.findById` (via `BaseRepository.findById`): first
non-deleted row with the id. -/
def findProduct (db : DB) (pid : Nat) : Option Product :=
  db.products.find? (prodKey pid)

/-- `BusinessRepository.findById`. -/
def findBusiness (db : DB) (bid : Nat) : Option Business :=
  db.businesses.find? (bizKey bid)

/-- `TransactionRepository.findById`. -/
def findTransaction (db : DB) (txId : Nat) : Option Transaction :=
  db.transactions.find? (txKey txId)

/-- Details of a transaction, as joined by
`TransactionRepository.findWithDetails` (`TransactionDetails(*)`). -/
def detailsOf (db : DB) (txId : Nat) : List TransactionDetail :=
  db.details.filter (fun d => d.transaction_id == txId)

/-- The in-store effect of `ProductRepository.updateStock`: set
`current_stock` on the non-deleted rows matching the id. -/
def updateStockDB (db : DB) (pid : Nat) (newStock : Int) : DB :=
  { db with
    products := db.products.map fun p =>
      if prodKey pid p then { p with current_stock := newStock } else p }

/-- `ProductRepository.updateStock` through the failure oracle.  Returns
the new store and whether the write succeeded; a write to a missing (or
soft-deleted) product fails, mirroring `.single()` on zero updated rows. -/
def updateStock (env : Env) (db : DB) (pid : Nat) (newStock : Int) : DB × Bool :=
  if env.stockFail pid then (db, false)
  else if db.products.any (prodKey pid) then (updateStockDB db pid newStock, true)
  else (db, false)

/-- The in-store effect of `BusinessRepository.updateBalance`. -/
def updateBalanceDB (db : DB) (bid : Nat) (newBalance : Int) : DB :=
  { db with
    businesses := db.businesses.map fun b =>
      if bizKey bid b then { b with current_balance := newBalance } else b }

/-- `BusinessRepository.updateBalance` through the failure oracle. -/
def updateBalance (env : Env) (db : DB) (bid : Nat) (newBalance : Int) : DB × Bool :=
  if env.balanceFail bid then (db, false)
  else if db.businesses.any (bizKey bid) then (updateBalanceDB db bid newBalance, true)
  else (db, false)

/-- `BaseRepository.delete` on the Transactions table (hard delete).
Modelled from the spec: the Data Access Facade contract specifies
`deleteTransaction(id)` as cascading to the transaction's lines; the
foreign-key cascade lives in the database schema, which is not part of
the repository source, so the cascade is taken from the spec's words. -/
def hardDeleteTransaction (db : DB) (txId : Nat) : DB :=
  { db with
    transactions := db.transactions.filter (fun t => !(t.id == txId)),
    details := db.details.filter (fun d => !(d.transaction_id == txId)) }

/-- `BaseRepository.softDelete` on the Transactions table: set the
`deleted_at` marker on the non-deleted row; fails when no such row. -/
def softDeleteTransaction (db : DB) (txId : Nat) : DB × Bool :=
  if db.transactions.any (txKey txId) then
    ({ db with
       transactions := db.transactions.map fun t =>
         if txKey txId t then { t with deleted := true } else t }, true)
  else (db, false)

/-- One requested line of `TransactionRepository.createWithDetails`:
product id, quantity, unit price. -/
structure LineReq where
  productId : Nat
  quantity : Int
  unitPrice : Int
deriving DecidableEq, Repr

/-- `TransactionRepository.createWithDetails` (and plain `create` when
`lines = []`): insert the header with the next id, then insert the
details rows with `transaction_id` set to the new id. -/
def createTxWithDetails (db : DB) (businessId : Nat) (ttype : TransactionType)
    (category : Option String) (amount : Int) (description : Option String)
    (status : TransactionStatus) (lines : List LineReq) : DB × Transaction :=
  let tx : Transaction :=
    { id := db.nextTxId, business_id := businessId, ttype := ttype,
      category := category, amount := amount, description := description,
      status := status, transaction_date := none, deleted := false }
  let newDetails := lines.map fun l =>
    { transaction_id := tx.id, product_id := l.productId,
      quantity := l.quantity, unit_price_at_transaction := l.unitPrice :
      TransactionDetail }
  ({ db with
     transactions := db.transactions ++ [tx],
     details := db.details ++ newDetails,
     nextTxId := db.nextTxId + 1 }, tx)

/-! ## Errors and results of the service layer -/

/-- Error values surfaced by the transaction service and the
`cancelTransaction` controller, one constructor per `new Error(...)` /
`AppError` site the embedded operations can reach. -/
inductive SvcError where
  | productNotFound (productId : Nat)
  | insufficientStock (name : String) (available requested : Int)
  | productNotFoundDuringStockUpdate (productId : Nat)
  | stockUpdateFailed (productId : Nat)
  | businessNotFoundDuringBalanceUpdate
  | balanceUpdateFailed
  | transactionNotFound
  | softDeleteFailed
  | cannotReduceBelowZero
deriving DecidableEq, Repr

/-- Result of a service call: the store after the call, the returned
transaction (`data`) and the returned error. -/
structure SvcResult where
  db : DB
  tx : Option Transaction
  err : Option SvcError
deriving DecidableEq, Repr

/-- Result of `deleteTransaction`: store, `success` flag, error. -/
structure DeleteResult where
  db : DB
  success : Bool
  err : Option SvcError
deriving DecidableEq, Repr

/-! ## Product service (`product.service.ts`) -/

/-- Status branching of `ProductService.manageStockAndStatus` (steps 3):
`stock === 0 → out`, `stock < 10 → low`, else `active`. -/
def resolveStatus (stock : Int) : StockStatus :=
  if stock = 0 then .out
  else if stock < 10 then .low
  else .active

/-- `ProductService.manageStockAndStatus`: fetch, add the change,
reject a negative result ("Cannot reduce below zero"), then write stock
together with the derived status.  Returns the store and the error. -/
def manageStockAndStatus (db : DB) (productId : Nat) (quantityChange : Int) :
    DB × Option SvcError :=
  match findProduct db productId with
  | none => (db, some (.productNotFound productId))
  | some product =>
    let newStock := product.current_stock + quantityChange
    if newStock < 0 then (db, some .cannotReduceBelowZero)
    else
      ({ db with
         products := db.products.map fun p =>
           if prodKey productId p then
             { p with current_stock := newStock,
                      stock_status := resolveStatus newStock }
           else p }, none)

/-- Status branching inside `ProductService.updateStockStatusBatch`,
written in the source as a second copy of the same three branches. -/
def batchStatusOf (p : Product) : StockStatus :=
  if p.current_stock = 0 then .out
  else if p.current_stock < 10 then .low
  else .active

/-- The in-store effect of `ProductRepository.updateStockStatus`. -/
def updateStockStatusDB (db : DB) (pid : Nat) (st : StockStatus) : DB :=
  { db with
    products := db.products.map fun p =>
      if prodKey pid p then { p with stock_status := st } else p }

/-- Iteration of `updateStockStatusBatch` over the fetched products:
write the recomputed status only when it differs, counting corrections. -/
def batchLoop : DB → Nat → List Product → DB × Nat
  | db, count, [] => (db, count)
  | db, count, p :: rest =>
    let newStatus := batchStatusOf p
    if p.stock_status = newStatus then batchLoop db count rest
    else batchLoop (updateStockStatusDB db p.id newStatus) (count + 1) rest

/-- `ProductService.updateStockStatusBatch`: resync the stored status of
every non-deleted product of the business. -/
def updateStockStatusBatch (db : DB) (businessId : Nat) : DB × Nat :=
  batchLoop db 0
    (db.products.filter fun p => p.business_id == businessId && !p.deleted)

/-! ## Transaction service (`transaction.service.ts`) -/

/-- A line of `recordProductSale` (`ProductSaleItem`): `productId`,
`quantity`, `sellingPrice`. -/
structure SaleItem where
  productId : Nat
  quantity : Int
  sellingPrice : Int
deriving DecidableEq, Repr

/-- Step 1 of `recordProductSale`: per line, fetch the product; missing
product or `current_stock < quantity` aborts with the first error. -/
def validateSale (db : DB) : List SaleItem → Option SvcError
  | [] => none
  | item :: rest =>
    match findProduct db item.productId with
    | none => some (.productNotFound item.productId)
    | some product =>
      if product.current_stock < item.quantity then
        some (.insufficientStock product.name product.current_stock item.quantity)
      else validateSale db rest

/-- Step 4 of `recordProductSale`: per line, re-fetch the product, write
`current_stock - quantity`; a fetch or write failure hard-deletes the
created transaction and returns the error. -/
def saleStockLoop (env : Env) (txId : Nat) : DB → List SaleItem → DB × Option SvcError
  | db, [] => (db, none)
  | db, item :: rest =>
    match findProduct db item.productId with
    | none =>
      (hardDeleteTransaction db txId, some (.productNotFoundDuringStockUpdate item.productId))
    | some product =>
      let res := updateStock env db item.productId (product.current_stock - item.quantity)
      if res.2 then saleStockLoop env txId res.1 rest
      else (hardDeleteTransaction res.1 txId, some (.stockUpdateFailed item.productId))

/-- Stock rollback of `recordProductSale`'s balance phase: per line,
re-fetch the product and, when found, re-add the quantity; write
failures are not checked. -/
def saleRestoreStock (env : Env) : DB → List SaleItem → DB
  | db, [] => db
  | db, item :: rest =>
    match findProduct db item.productId with
    | none => saleRestoreStock env db rest
    | some product =>
      saleRestoreStock env
        (updateStock env db item.productId (product.current_stock + item.quantity)).1 rest

/-- `TransactionService.recordProductSale`: validate, create the
transaction with its details, decrement stock line by line, then
increment the business balance; on balance-phase failure restore stock
and hard-delete the transaction. -/
def recordProductSale (env : Env) (db : DB) (businessId : Nat)
    (products : List SaleItem) (description : Option String) : SvcResult :=
  match validateSale db products with
  | some e => ⟨db, none, some e⟩
  | none =>
    let totalAmount := products.foldl (fun s item => s + item.quantity * item.sellingPrice) 0
    let created := createTxWithDetails db businessId .Income (some "Sales")
      totalAmount (some (description.getD "Product sale")) .complete
      (products.map fun item => ⟨item.productId, item.quantity, item.sellingPrice⟩)
    let db1 := created.1
    let tx := created.2
    match saleStockLoop env tx.id db1 products with
    | (db2, some e) => ⟨db2, none, some e⟩
    | (db2, none) =>
      match findBusiness db2 businessId with
      | none =>
        let db3 := saleRestoreStock env db2 products
        ⟨hardDeleteTransaction db3 tx.id, none, some .businessNotFoundDuringBalanceUpdate⟩
      | some business =>
        let res := updateBalance env db2 businessId (business.current_balance + totalAmount)
        if res.2 then ⟨res.1, some tx, none⟩
        else
          let db4 := saleRestoreStock env res.1 products
          ⟨hardDeleteTransaction db4 tx.id, none, some .balanceUpdateFailed⟩

/-- A line of `recordStockPurchase` (`StockPurchaseItem`). -/
structure PurchaseItem where
  productId : Nat
  quantity : Int
  purchasePrice : Int
deriving DecidableEq, Repr

/-- Step 1 of `recordStockPurchase`: only existence is validated. -/
def validatePurchase (db : DB) : List PurchaseItem → Option SvcError
  | [] => none
  | item :: rest =>
    match findProduct db item.productId with
    | none => some (.productNotFound item.productId)
    | some _ => validatePurchase db rest

/-- Step 4 of `recordStockPurchase`: per line, re-fetch and write
`current_stock + quantity`; failures hard-delete the transaction. -/
def purchaseStockLoop (env : Env) (txId : Nat) : DB → List PurchaseItem → DB × Option SvcError
  | db, [] => (db, none)
  | db, item :: rest =>
    match findProduct db item.productId with
    | none =>
      (hardDeleteTransaction db txId, some (.productNotFoundDuringStockUpdate item.productId))
    | some product =>
      let res := updateStock env db item.productId (product.current_stock + item.quantity)
      if res.2 then purchaseStockLoop env txId res.1 rest
      else (hardDeleteTransaction res.1 txId, some (.stockUpdateFailed item.productId))

/-- Stock rollback of `recordStockPurchase`'s balance phase: subtract
the quantities back; write failures are not checked. -/
def purchaseRestoreStock (env : Env) : DB → List PurchaseItem → DB
  | db, [] => db
  | db, item :: rest =>
    match findProduct db item.productId with
    | none => purchaseRestoreStock env db rest
    | some product =>
      purchaseRestoreStock env
        (updateStock env db item.productId (product.current_stock - item.quantity)).1 rest

/-- `TransactionService.recordStockPurchase`: mirror of the sale with
kind Expense, category "Stock Purchase", stock `+quantity` and balance
`-amount`. -/
def recordStockPurchase (env : Env) (db : DB) (businessId : Nat)
    (products : List PurchaseItem) (description : Option String) : SvcResult :=
  match validatePurchase db products with
  | some e => ⟨db, none, some e⟩
  | none =>
    let totalAmount := products.foldl (fun s item => s + item.quantity * item.purchasePrice) 0
    let created := createTxWithDetails db businessId .Expense (some "Stock Purchase")
      totalAmount (some (description.getD "Stock purchase")) .complete
      (products.map fun item => ⟨item.productId, item.quantity, item.purchasePrice⟩)
    let db1 := created.1
    let tx := created.2
    match purchaseStockLoop env tx.id db1 products with
    | (db2, some e) => ⟨db2, none, some e⟩
    | (db2, none) =>
      match findBusiness db2 businessId with
      | none =>
        let db3 := purchaseRestoreStock env db2 products
        ⟨hardDeleteTransaction db3 tx.id, none, some .businessNotFoundDuringBalanceUpdate⟩
      | some business =>
        let res := updateBalance env db2 businessId (business.current_balance - totalAmount)
        if res.2 then ⟨res.1, some tx, none⟩
        else
          let db4 := purchaseRestoreStock env res.1 products
          ⟨hardDeleteTransaction db4 tx.id, none, some .balanceUpdateFailed⟩

/-- `TransactionService.createGeneralTransaction`: create a transaction
with no lines, defaulting an omitted status to `complete`; touch the
balance only when the created status is `complete`, deleting the
transaction when the balance phase fails. -/
def createGeneralTransaction (env : Env) (db : DB) (businessId : Nat)
    (ttype : TransactionType) (category : Option String) (amount : Int)
    (description : Option String) (status : Option TransactionStatus) : SvcResult :=
  let created := createTxWithDetails db businessId ttype category amount
    description (status.getD .complete) []
  let db1 := created.1
  let tx := created.2
  if tx.status = .complete then
    match findBusiness db1 businessId with
    | none =>
      ⟨hardDeleteTransaction db1 tx.id, none, some .businessNotFoundDuringBalanceUpdate⟩
    | some business =>
      let newBalance :=
        if ttype = .Income then business.current_balance + amount
        else business.current_balance - amount
      let res := updateBalance env db1 businessId newBalance
      if res.2 then ⟨res.1, some tx, none⟩
      else ⟨hardDeleteTransaction res.1 tx.id, none, some .balanceUpdateFailed⟩
  else ⟨db1, some tx, none⟩

/-- Stock-reversal loop of `deleteTransaction`: per detail row, re-fetch
the product and, when found, add the quantity back for an Income
transaction or subtract it for an Expense one; write failures are not
checked. -/
def deleteReverseStock (env : Env) (ttype : TransactionType) : DB → List TransactionDetail → DB
  | db, [] => db
  | db, detail :: rest =>
    match findProduct db detail.product_id with
    | none => deleteReverseStock env ttype db rest
    | some product =>
      let newStock :=
        if ttype = .Income then product.current_stock + detail.quantity
        else product.current_stock - detail.quantity
      deleteReverseStock env ttype (updateStock env db detail.product_id newStock).1 rest

/-- `TransactionService.deleteTransaction`: fetch the transaction with
its details; when its status is `complete`, reverse the balance effect
(ignoring a reversal-write failure) and then each line's stock effect
(ignoring failures); finally soft-delete the transaction. -/
def deleteTransaction (env : Env) (db : DB) (businessId txId : Nat) : DeleteResult :=
  match findTransaction db txId with
  | none => ⟨db, false, some .transactionNotFound⟩
  | some tx =>
    if tx.business_id ≠ businessId then ⟨db, false, some .transactionNotFound⟩
    else
      let dts := detailsOf db txId
      let db1 :=
        if tx.status = .complete then
          let dbB :=
            match findBusiness db businessId with
            | none => db
            | some business =>
              let newBalance :=
                if tx.ttype = .Income then business.current_balance - tx.amount
                else business.current_balance + tx.amount
              (updateBalance env db businessId newBalance).1
          deleteReverseStock env tx.ttype dbB dts
        else db
      let res := softDeleteTransaction db1 txId
      if res.2 then ⟨res.1, true, none⟩ else ⟨res.1, false, some .softDeleteFailed⟩

/-- Update payload of `updateGeneralTransaction`: only supplied fields
are written. -/
structure UpdatePayload where
  amount : Option Int
  category : Option String
  description : Option String
  status : Option TransactionStatus
  date : Option String
deriving DecidableEq, Repr

/-- The `updates` object built by `updateGeneralTransaction` merged into
a stored row: each supplied field overwrites, omitted fields are kept. -/
def applyUpdates (t : Transaction) (p : UpdatePayload) : Transaction :=
  { t with
    category := match p.category with | some c => some c | none => t.category,
    description := match p.description with | some d => some d | none => t.description,
    status := p.status.getD t.status,
    transaction_date := match p.date with | some d => some d | none => t.transaction_date,
    amount := p.amount.getD t.amount }

/-- Step 3 of `updateGeneralTransaction`: when an amount change is
supplied and the existing status is `complete`, revert the old amount's
balance effect and apply the new one (a write failure is not checked). -/
def updateGeneralBalanceAdjust (env : Env) (db : DB) (businessId : Nat)
    (oldTx : Transaction) (p : UpdatePayload) : DB :=
  match p.amount with
  | none => db
  | some newAmount =>
    if newAmount ≠ oldTx.amount ∧ oldTx.status = TransactionStatus.complete then
      match findBusiness db businessId with
      | none => db
      | some business =>
        let reverted :=
          if oldTx.ttype = TransactionType.Income then business.current_balance - oldTx.amount
          else business.current_balance + oldTx.amount
        let applied :=
          if oldTx.ttype = TransactionType.Income then reverted + newAmount
          else reverted - newAmount
        (updateBalance env db businessId applied).1
    else db

/-- `TransactionService.updateGeneralTransaction`: fetch the existing
transaction; adjust the balance when an amount change is supplied; then
write the supplied fields. -/
def updateGeneralTransaction (env : Env) (db : DB) (businessId txId : Nat)
    (p : UpdatePayload) : SvcResult :=
  match findTransaction db txId with
  | none => ⟨db, none, some .transactionNotFound⟩
  | some oldTx =>
    if oldTx.business_id ≠ businessId then ⟨db, none, some .transactionNotFound⟩
    else
      let db1 := updateGeneralBalanceAdjust env db businessId oldTx p
      ⟨{ db1 with
         transactions := db1.transactions.map fun t =>
           if txKey txId t then applyUpdates t p else t },
       some (applyUpdates oldTx p), none⟩

/-! ## Cancel controller (transaction controller `cancelTransaction`) -/

/-- `cancelTransaction` controller: verify the transaction exists and
belongs to the business, then update only `status` to `cancel`. -/
def cancelTransaction (db : DB) (businessId txId : Nat) : SvcResult :=
  match findTransaction db txId with
  | none => ⟨db, none, some .transactionNotFound⟩
  | some tx =>
    if tx.business_id ≠ businessId then ⟨db, none, some .transactionNotFound⟩
    else
      ⟨{ db with
         transactions := db.transactions.map fun t =>
           if txKey txId t then { t with status := .cancel } else t },
       some { tx with status := .cancel }, none⟩

/-! ## Observation functions and well-formedness -/

/-- Stock of a product as a later read would see it. -/
def stockOf (db : DB) (pid : Nat) : Option Int :=
  (findProduct db pid).map fun p => p.current_stock

/-- Stored status of a product as a later read would see it. -/
def statusOf (db : DB) (pid : Nat) : Option StockStatus :=
  (findProduct db pid).map fun p => p.stock_status

/-- Balance of a business as a later read would see it. -/
def balanceOf (db : DB) (bid : Nat) : Option Int :=
  (findBusiness db bid).map fun b => b.current_balance

/-- Freshness of the Transactions id sequence: every stored transaction
and detail row carries an id below the next id to be assigned. -/
def WF (db : DB) : Prop :=
  (∀ t ∈ db.transactions, t.id < db.nextTxId) ∧
  (∀ d ∈ db.details, d.transaction_id < db.nextTxId)

instance (db : DB) : Decidable (WF db) := by
  unfold WF; infer_instance

/-- Total quantity the sale lines request for one product id. -/
def saleQty : List SaleItem → Nat → Int
  | [], _ => 0
  | item :: rest, pid =>
    (if item.productId = pid then item.quantity else 0) + saleQty rest pid

/-- Total quantity the stored detail rows carry for one product id. -/
def detailQty : List TransactionDetail → Nat → Int
  | [], _ => 0
  | d :: rest, pid =>
    (if d.product_id = pid then d.quantity else 0) + detailQty rest pid

/-! ## Concrete fixtures used by witnesses and counterexamples -/

/-- A business with the balance of spec property table (§8). -/
def fxBiz : Business := ⟨1, 5000000, false⟩

/-- Product with stock 12 and stored status `active`. -/
def fxProd12 : Product := ⟨1, 1, "P1", 12, .active, false⟩

/-- Second product, stock 20, `active`. -/
def fxProd20 : Product := ⟨2, 1, "P2", 20, .active, false⟩

/-- Store with one product of stock 12 and one business. -/
def fxDb12 : DB := ⟨[fxProd12], [fxBiz], [], [], 1⟩

/-- Store with two products (stocks 12 and 20) and one business. -/
def fxDbTwo : DB := ⟨[fxProd12, fxProd20], [fxBiz], [], [], 1⟩

/-- Store with one product of stock 3 and one business. -/
def fxDb3 : DB := ⟨[⟨1, 1, "P1", 3, .low, false⟩], [fxBiz], [], [], 1⟩

/-- Store with one product of stock 0 and a zero-balance business. -/
def fxDb0 : DB := ⟨[⟨1, 1, "P1", 0, .out, false⟩], [⟨1, 0, false⟩], [], [], 1⟩

/-- Environment in which only writes to product 2's stock fail. -/
def fxEnvStock2 : Env := ⟨fun pid => pid == 2, fun _ => false⟩

/-- Environment in which every business-balance write fails. -/
def fxEnvBal : Env := ⟨fun _ => false, fun _ => true⟩

/-- A stored pending Income transaction of amount 100. -/
def fxTxPending : Transaction := ⟨7, 1, .Income, none, 100, none, .pending, none, false⟩

/-- Store holding only `fxTxPending` and one business. -/
def fxDbT : DB := ⟨[], [fxBiz], [fxTxPending], [], 8⟩

/-- Concrete run: purchase 20 units into the zero-stock store (creates
transaction 1, a completed Expense). -/
def fxRunPurchase : SvcResult :=
  recordStockPurchase Env.noFail fxDb0 1 [⟨1, 20, 60000⟩] none

/-- Concrete run: then sell 15 of the 20 purchased units. -/
def fxRunSaleAfter : SvcResult :=
  recordProductSale Env.noFail fxRunPurchase.db 1 [⟨1, 15, 75000⟩] none

/-- Concrete run: then delete the completed purchase transaction. -/
def fxRunDelete : DeleteResult :=
  deleteTransaction Env.noFail fxRunSaleAfter.db 1 1

/-- Concrete run: a plain sale of 5 units from the stock-12 store. -/
def fxRunSale12 : SvcResult :=
  recordProductSale Env.noFail fxDb12 1 [⟨1, 5, 75000⟩] none

/-! ## Helper lemmas about the facade -/

/-- Mapping a row transformer that preserves a row predicate commutes
with `find?` on that predicate. -/
theorem find?_map_of_pres {α : Type} {f : α → α} {q : α → Bool}
    (h : ∀ a, q (f a) = q a) :
    ∀ l : List α, (l.map f).find? q = (l.find? q).map f := by
  intro l
  induction l with
  | nil => rfl
  | cons a t ih =>
    simp only [List.map_cons, List.find?_cons, h a]
    cases hq : q a <;> simp [ih]

/-- `find?` skips a prefix on which the predicate is false. -/
theorem find?_append_of_false {α : Type} {q : α → Bool} {l : List α}
    (h : ∀ a ∈ l, q a = false) (l' : List α) :
    (l ++ l').find? q = l'.find? q := by
  induction l with
  | nil => rfl
  | cons a t ih =>
    have ha : q a = false := h a (List.mem_cons_self a t)
    simp only [List.cons_append, List.find?_cons, ha]
    exact ih fun x hx => h x (List.mem_cons_of_mem _ hx)

/-- Stock writes preserve the product-row predicate. -/
theorem prodKey_stock_write (pid pid' : Nat) (v : Int) (p : Product) :
    prodKey pid' (if prodKey pid p then { p with current_stock := v } else p) =
      prodKey pid' p := by
  by_cases h : prodKey pid p = true
  · rw [if_pos h]; rfl
  · rw [if_neg h]

/-- Reads after `updateStockDB` see the written row image. -/
theorem findProduct_updateStockDB (db : DB) (pid : Nat) (v : Int) (pid' : Nat) :
    findProduct (updateStockDB db pid v) pid' =
      (findProduct db pid').map
        (fun p => if prodKey pid p then { p with current_stock := v } else p) := by
  unfold findProduct updateStockDB
  exact find?_map_of_pres (prodKey_stock_write pid pid' v) _

/-- A product row found under a key satisfies the key. -/
theorem findProduct_key {db : DB} {pid : Nat} {p : Product}
    (h : findProduct db pid = some p) : p.id = pid ∧ p.deleted = false := by
  have := List.find?_some h
  simpa [prodKey] using this

/-- A stock write to another product does not change a product's stock. -/
theorem stockOf_updateStockDB_ne {db : DB} {pid pid' : Nat} {v : Int}
    (hne : pid' ≠ pid) : stockOf (updateStockDB db pid v) pid' = stockOf db pid' := by
  unfold stockOf
  rw [findProduct_updateStockDB]
  cases hfp : findProduct db pid' with
  | none => rfl
  | some p =>
    obtain ⟨hid, hdel⟩ := findProduct_key hfp
    have : prodKey pid p = false := by simp [prodKey, hid, hne]
    simp [this]

/-- A stock write is observed by a read of the same product. -/
theorem stockOf_updateStockDB_eq {db : DB} {pid : Nat} {p : Product} {v : Int}
    (h : findProduct db pid = some p) :
    stockOf (updateStockDB db pid v) pid = some v := by
  unfold stockOf
  rw [findProduct_updateStockDB, h]
  have := List.find?_some h
  simp [this]

/-- Stock writes preserve which products are found. -/
theorem findProduct_isSome_updateStockDB (db : DB) (pid : Nat) (v : Int) (pid' : Nat) :
    (findProduct (updateStockDB db pid v) pid').isSome = (findProduct db pid').isSome := by
  rw [findProduct_updateStockDB]
  cases findProduct db pid' <;> rfl

/-- `updateStockDB` leaves businesses untouched. -/
theorem updateStockDB_businesses (db : DB) (pid : Nat) (v : Int) :
    (updateStockDB db pid v).businesses = db.businesses := rfl

/-- `updateStockDB` leaves transactions untouched. -/
theorem updateStockDB_transactions (db : DB) (pid : Nat) (v : Int) :
    (updateStockDB db pid v).transactions = db.transactions := rfl

/-- `updateStockDB` leaves detail rows untouched. -/
theorem updateStockDB_details (db : DB) (pid : Nat) (v : Int) :
    (updateStockDB db pid v).details = db.details := rfl

/-- `updateStockDB` leaves the id sequence untouched. -/
theorem updateStockDB_nextTxId (db : DB) (pid : Nat) (v : Int) :
    (updateStockDB db pid v).nextTxId = db.nextTxId := rfl

/-- A stock write succeeds when the oracle lets it through and the
product is found. -/
theorem updateStock_ok {env : Env} {db : DB} {pid : Nat} {p : Product} (v : Int)
    (hf : env.stockFail pid = false) (h : findProduct db pid = some p) :
    updateStock env db pid v = (updateStockDB db pid v, true) := by
  unfold updateStock
  rw [hf]
  have hex : db.products.any (prodKey pid) = true := by
    rw [List.any_eq_true]
    exact ⟨p, List.mem_of_find?_eq_some h, List.find?_some h⟩
  simp [hex]

/-- Balance writes preserve the business-row predicate. -/
theorem bizKey_balance_write (bid bid' : Nat) (v : Int) (b : Business) :
    bizKey bid' (if bizKey bid b then { b with current_balance := v } else b) =
      bizKey bid' b := by
  by_cases h : bizKey bid b = true
  · rw [if_pos h]; rfl
  · rw [if_neg h]

/-- Reads after `updateBalanceDB` see the written row image. -/
theorem findBusiness_updateBalanceDB (db : DB) (bid : Nat) (v : Int) (bid' : Nat) :
    findBusiness (updateBalanceDB db bid v) bid' =
      (findBusiness db bid').map
        (fun b => if bizKey bid b then { b with current_balance := v } else b) := by
  unfold findBusiness updateBalanceDB
  exact find?_map_of_pres (bizKey_balance_write bid bid' v) _

/-- A business row found under a key satisfies the key. -/
theorem findBusiness_key {db : DB} {bid : Nat} {b : Business}
    (h : findBusiness db bid = some b) : b.id = bid ∧ b.deleted = false := by
  have := List.find?_some h
  simpa [bizKey] using this

/-- A balance write to another business does not change a balance. -/
theorem balanceOf_updateBalanceDB_ne {db : DB} {bid bid' : Nat} {v : Int}
    (hne : bid' ≠ bid) :
    balanceOf (updateBalanceDB db bid v) bid' = balanceOf db bid' := by
  unfold balanceOf
  rw [findBusiness_updateBalanceDB]
  cases hfb : findBusiness db bid' with
  | none => rfl
  | some b =>
    obtain ⟨hid, hdel⟩ := findBusiness_key hfb
    have : bizKey bid b = false := by simp [bizKey, hid, hne]
    simp [this]

/-- A balance write is observed by a read of the same business. -/
theorem balanceOf_updateBalanceDB_eq {db : DB} {bid : Nat} {b : Business} {v : Int}
    (h : findBusiness db bid = some b) :
    balanceOf (updateBalanceDB db bid v) bid = some v := by
  unfold balanceOf
  rw [findBusiness_updateBalanceDB, h]
  have := List.find?_some h
  simp [this]

/-- Balance writes preserve which businesses are found. -/
theorem findBusiness_isSome_updateBalanceDB (db : DB) (bid : Nat) (v : Int) (bid' : Nat) :
    (findBusiness (updateBalanceDB db bid v) bid').isSome = (findBusiness db bid').isSome := by
  rw [findBusiness_updateBalanceDB]
  cases findBusiness db bid' <;> rfl

/-- `updateBalanceDB` leaves products untouched. -/
theorem updateBalanceDB_products (db : DB) (bid : Nat) (v : Int) :
    (updateBalanceDB db bid v).products = db.products := rfl

/-- `updateBalanceDB` leaves transactions untouched. -/
theorem updateBalanceDB_transactions (db : DB) (bid : Nat) (v : Int) :
    (updateBalanceDB db bid v).transactions = db.transactions := rfl

/-- `updateBalanceDB` leaves detail rows untouched. -/
theorem updateBalanceDB_details (db : DB) (bid : Nat) (v : Int) :
    (updateBalanceDB db bid v).details = db.details := rfl

/-- `updateBalanceDB` leaves the id sequence untouched. -/
theorem updateBalanceDB_nextTxId (db : DB) (bid : Nat) (v : Int) :
    (updateBalanceDB db bid v).nextTxId = db.nextTxId := rfl

/-- A balance write succeeds when the oracle lets it through and the
business is found. -/
theorem updateBalance_ok {env : Env} {db : DB} {bid : Nat} {b : Business} (v : Int)
    (hf : env.balanceFail bid = false) (h : findBusiness db bid = some b) :
    updateBalance env db bid v = (updateBalanceDB db bid v, true) := by
  unfold updateBalance
  rw [hf]
  have hex : db.businesses.any (bizKey bid) = true := by
    rw [List.any_eq_true]
    exact ⟨b, List.mem_of_find?_eq_some h, List.find?_some h⟩
  simp [hex]

/-! ## Effect lemmas for the side-effect loops -/

/-- Validation success yields, for every line, a found product with
enough stock. -/
theorem validateSale_none {db : DB} :
    ∀ {items : List SaleItem}, validateSale db items = none →
    ∀ item ∈ items, ∃ p, findProduct db item.productId = some p ∧
      item.quantity ≤ p.current_stock := by
  intro items
  induction items with
  | nil => intro _ item h; cases h
  | cons it rest ih =>
    intro hv item hmem
    cases hp : findProduct db it.productId with
    | none => simp only [validateSale, hp] at hv; exact Option.noConfusion hv
    | some p =>
      simp only [validateSale, hp] at hv
      by_cases hlt : p.current_stock < it.quantity
      · rw [if_pos hlt] at hv; cases hv
      · rw [if_neg hlt] at hv
        rcases List.mem_cons.mp hmem with heq | hrest
        · exact heq ▸ ⟨p, hp, le_of_not_lt hlt⟩
        · exact ih hv item hrest

/-- Effect of the sale stock loop under an all-success environment: it
succeeds, touches only product stocks, and decrements each product by
the total requested quantity. -/
theorem saleStockLoop_noFail (txId : Nat) :
    ∀ (items : List SaleItem) (db : DB),
    (∀ item ∈ items, (findProduct db item.productId).isSome = true) →
    ∃ db', saleStockLoop Env.noFail txId db items = (db', none) ∧
      db'.businesses = db.businesses ∧ db'.transactions = db.transactions ∧
      db'.details = db.details ∧ db'.nextTxId = db.nextTxId ∧
      (∀ pid, (findProduct db' pid).isSome = (findProduct db pid).isSome) ∧
      (∀ pid, stockOf db' pid = (stockOf db pid).map fun s => s - saleQty items pid) := by
  intro items
  induction items with
  | nil =>
    intro db _
    refine ⟨db, rfl, rfl, rfl, rfl, rfl, fun _ => rfl, fun pid => ?_⟩
    cases h : stockOf db pid <;> simp [saleQty]
  | cons item rest ih =>
    intro db hex
    obtain ⟨p, hp⟩ := Option.isSome_iff_exists.mp (hex item (List.mem_cons_self item rest))
    set db1 := updateStockDB db item.productId (p.current_stock - item.quantity) with hdb1
    have hex1 : ∀ it ∈ rest, (findProduct db1 it.productId).isSome = true := by
      intro it hit
      rw [hdb1, findProduct_isSome_updateStockDB]
      exact hex it (List.mem_cons_of_mem _ hit)
    obtain ⟨db', hloop, hb, ht, hd, hn, hsome, hstock⟩ := ih db1 hex1
    have hstep : saleStockLoop Env.noFail txId db (item :: rest) =
        saleStockLoop Env.noFail txId db1 rest := by
      simp only [saleStockLoop, hp]
      rw [updateStock_ok (p.current_stock - item.quantity)
        (show Env.noFail.stockFail item.productId = false from rfl) hp]
      rfl
    refine ⟨db', hstep ▸ hloop, hb.trans rfl, ht.trans rfl, hd.trans rfl, hn.trans rfl,
      ?_, ?_⟩
    · intro pid
      rw [hsome pid, hdb1, findProduct_isSome_updateStockDB]
    · intro pid
      rw [hstock pid]
      by_cases hpid : pid = item.productId
      · rw [hpid]
        have h1 : stockOf db1 item.productId = some (p.current_stock - item.quantity) :=
          stockOf_updateStockDB_eq hp
        have h0 : stockOf db item.productId = some p.current_stock := by
          unfold stockOf; rw [hp]; rfl
        rw [h1, h0]
        simp [saleQty, sub_sub]
      · have h1 : stockOf db1 pid = stockOf db pid := stockOf_updateStockDB_ne hpid
        rw [h1]
        have hq : saleQty (item :: rest) pid = saleQty rest pid := by
          simp only [saleQty]
          rw [if_neg (fun h => hpid h.symm), zero_add]
        rw [hq]

/-- Effect of the delete-path stock reversal for an Income transaction
under an all-success environment: it touches only product stocks and
adds back each detail row's quantity. -/
theorem deleteReverseStock_noFail_income :
    ∀ (dts : List TransactionDetail) (db : DB),
    (∀ d ∈ dts, (findProduct db d.product_id).isSome = true) →
    (deleteReverseStock Env.noFail .Income db dts).businesses = db.businesses ∧
    (deleteReverseStock Env.noFail .Income db dts).transactions = db.transactions ∧
    (deleteReverseStock Env.noFail .Income db dts).details = db.details ∧
    (deleteReverseStock Env.noFail .Income db dts).nextTxId = db.nextTxId ∧
    (∀ pid, stockOf (deleteReverseStock Env.noFail .Income db dts) pid =
      (stockOf db pid).map fun s => s + detailQty dts pid) := by
  intro dts
  induction dts with
  | nil =>
    intro db _
    refine ⟨rfl, rfl, rfl, rfl, fun pid => ?_⟩
    cases h : stockOf db pid <;> simp [deleteReverseStock, detailQty, h]
  | cons d rest ih =>
    intro db hex
    obtain ⟨p, hp⟩ := Option.isSome_iff_exists.mp (hex d (List.mem_cons_self d rest))
    set db1 := updateStockDB db d.product_id (p.current_stock + d.quantity) with hdb1
    have hex1 : ∀ x ∈ rest, (findProduct db1 x.product_id).isSome = true := by
      intro x hx
      rw [hdb1, findProduct_isSome_updateStockDB]
      exact hex x (List.mem_cons_of_mem _ hx)
    obtain ⟨hb, ht, hd, hn, hstock⟩ := ih db1 hex1
    have hstep : deleteReverseStock Env.noFail .Income db (d :: rest) =
        deleteReverseStock Env.noFail .Income db1 rest := by
      simp only [deleteReverseStock, hp, if_pos]
      rw [updateStock_ok (p.current_stock + d.quantity)
        (show Env.noFail.stockFail d.product_id = false from rfl) hp]
    rw [hstep]
    refine ⟨hb, ht, hd, hn, fun pid => ?_⟩
    rw [hstock pid]
    by_cases hpid : pid = d.product_id
    · rw [hpid]
      have h1 : stockOf db1 d.product_id = some (p.current_stock + d.quantity) :=
        stockOf_updateStockDB_eq hp
      have h0 : stockOf db d.product_id = some p.current_stock := by
        unfold stockOf; rw [hp]; rfl
      rw [h1, h0]
      simp [detailQty, add_assoc]
    · have h1 : stockOf db1 pid = stockOf db pid := stockOf_updateStockDB_ne hpid
      rw [h1]
      have hq : detailQty (d :: rest) pid = detailQty rest pid := by
        simp only [detailQty]
        rw [if_neg (fun h => hpid h.symm), zero_add]
      rw [hq]

/-- The detail rows created for the sale lines request exactly the sale
quantities, product by product. -/
theorem detailQty_saleLines (txId : Nat) (items : List SaleItem) (pid : Nat) :
    detailQty
      ((items.map fun item =>
        (⟨item.productId, item.quantity, item.sellingPrice⟩ : LineReq)).map fun l =>
        ({ transaction_id := txId, product_id := l.productId, quantity := l.quantity,
           unit_price_at_transaction := l.unitPrice } : TransactionDetail)) pid =
      saleQty items pid := by
  induction items with
  | nil => rfl
  | cons item rest ih =>
    simp only [List.map_cons, detailQty, saleQty]
    rw [ih]

/-! ## Transaction bookkeeping helpers -/

/-- A freshly appended transaction is what a read of its id finds, when
every earlier row has a different id. -/
theorem find?_txKey_append {l : List Transaction} {tx : Transaction}
    (hfresh : ∀ t ∈ l, t.id ≠ tx.id) (hdel : tx.deleted = false) :
    (l ++ [tx]).find? (txKey tx.id) = some tx := by
  rw [find?_append_of_false]
  · simp [List.find?_cons, txKey, hdel]
  · intro a ha
    have : (a.id == tx.id) = false := beq_eq_false_iff_ne.mpr (hfresh a ha)
    simp [txKey, this]

/-- Hard-deleting a freshly appended transaction restores the previous
rows exactly. -/
theorem filter_out_fresh_tx {l : List Transaction} {tx : Transaction}
    (hfresh : ∀ t ∈ l, t.id ≠ tx.id) :
    (l ++ [tx]).filter (fun t => !(t.id == tx.id)) = l := by
  rw [List.filter_append]
  have h1 : l.filter (fun t => !(t.id == tx.id)) = l := by
    rw [List.filter_eq_self]
    intro a ha
    simp [beq_eq_false_iff_ne.mpr (hfresh a ha)]
  have h2 : [tx].filter (fun t => !(t.id == tx.id)) = [] := by simp
  rw [h1, h2, List.append_nil]

/-- Hard-deleting by a fresh transaction id also removes exactly the
detail rows that were appended for it. -/
theorem filter_out_fresh_details {l nd : List TransactionDetail} {txId : Nat}
    (hfresh : ∀ d ∈ l, d.transaction_id ≠ txId)
    (hnd : ∀ d ∈ nd, d.transaction_id = txId) :
    (l ++ nd).filter (fun d => !(d.transaction_id == txId)) = l := by
  rw [List.filter_append]
  have h1 : l.filter (fun d => !(d.transaction_id == txId)) = l := by
    rw [List.filter_eq_self]
    intro a ha
    simp [beq_eq_false_iff_ne.mpr (hfresh a ha)]
  have h2 : nd.filter (fun d => !(d.transaction_id == txId)) = [] := by
    rw [List.filter_eq_nil_iff]
    intro a ha
    simp [hnd a ha]
  rw [h1, h2, List.append_nil]

/-- The joined details of a freshly appended transaction are exactly its
appended rows. -/
theorem filter_in_fresh_details {l nd : List TransactionDetail} {txId : Nat}
    (hfresh : ∀ d ∈ l, d.transaction_id ≠ txId)
    (hnd : ∀ d ∈ nd, d.transaction_id = txId) :
    (l ++ nd).filter (fun d => d.transaction_id == txId) = nd := by
  rw [List.filter_append]
  have h1 : l.filter (fun d => d.transaction_id == txId) = [] := by
    rw [List.filter_eq_nil_iff]
    intro a ha
    simp [beq_eq_false_iff_ne.mpr (hfresh a ha)]
  have h2 : nd.filter (fun d => d.transaction_id == txId) = nd := by
    rw [List.filter_eq_self]
    intro a ha
    simp [hnd a ha]
  rw [h1, h2, List.nil_append]

/-- Every detail row created for a list of sale lines carries the new
transaction's id. -/
theorem saleLines_txid {txId : Nat} {items : List SaleItem} :
    ∀ d ∈ (items.map fun item =>
        (⟨item.productId, item.quantity, item.sellingPrice⟩ : LineReq)).map fun l =>
        ({ transaction_id := txId, product_id := l.productId, quantity := l.quantity,
           unit_price_at_transaction := l.unitPrice } : TransactionDetail),
      d.transaction_id = txId := by
  intro d hd
  obtain ⟨l, _, rfl⟩ := List.mem_map.mp hd
  rfl

/-- Every detail row created for a list of sale lines refers to one of
the requested products. -/
theorem saleLines_pid {txId : Nat} {items : List SaleItem} :
    ∀ d ∈ (items.map fun item =>
        (⟨item.productId, item.quantity, item.sellingPrice⟩ : LineReq)).map fun l =>
        ({ transaction_id := txId, product_id := l.productId, quantity := l.quantity,
           unit_price_at_transaction := l.unitPrice } : TransactionDetail),
      ∃ item ∈ items, d.product_id = item.productId := by
  intro d hd
  obtain ⟨l, hl, rfl⟩ := List.mem_map.mp hd
  obtain ⟨item, hi, rfl⟩ := List.mem_map.mp hl
  exact ⟨item, hi, rfl⟩

/-- Status-only row updates preserve the transaction-row predicate. -/
theorem txKey_cancel_write (txId txId' : Nat) (t : Transaction) :
    txKey txId' (if txKey txId t then { t with status := TransactionStatus.cancel } else t) =
      txKey txId' t := by
  by_cases h : txKey txId t = true
  · rw [if_pos h]; rfl
  · rw [if_neg h]

/-- Field updates of `updateGeneralTransaction` preserve the
transaction-row predicate. -/
theorem txKey_applyUpdates (txId txId' : Nat) (p : UpdatePayload) (t : Transaction) :
    txKey txId' (if txKey txId t then applyUpdates t p else t) = txKey txId' t := by
  by_cases h : txKey txId t = true
  · rw [if_pos h]; rfl
  · rw [if_neg h]

/-- A transaction row found under a key satisfies the key. -/
theorem findTransaction_key {db : DB} {txId : Nat} {t : Transaction}
    (h : findTransaction db txId = some t) : t.id = txId ∧ t.deleted = false := by
  have := List.find?_some h
  simpa [txKey] using this

/-- Soft-deleting a transaction that a read finds succeeds and marks the
matching rows. -/
theorem softDelete_ok {db : DB} {txId : Nat} {tx : Transaction}
    (h : findTransaction db txId = some tx) :
    softDeleteTransaction db txId =
      ({ db with
         transactions := db.transactions.map fun t =>
           if txKey txId t then { t with deleted := true } else t }, true) := by
  unfold softDeleteTransaction
  have hex : db.transactions.any (txKey txId) = true := by
    rw [List.any_eq_true]
    exact ⟨tx, List.mem_of_find?_eq_some h, List.find?_some h⟩
  simp [hex]

/-! ## Congruence and component lemmas -/

/-- Product reads depend only on the products table. -/
theorem findProduct_eq_of_products {db db' : DB} (h : db.products = db'.products)
    (pid : Nat) : findProduct db pid = findProduct db' pid := by
  unfold findProduct; rw [h]

/-- Stock reads depend only on the products table. -/
theorem stockOf_eq_of_products {db db' : DB} (h : db.products = db'.products)
    (pid : Nat) : stockOf db pid = stockOf db' pid := by
  unfold stockOf; rw [findProduct_eq_of_products h]

/-- Business reads depend only on the businesses table. -/
theorem findBusiness_eq_of_businesses {db db' : DB} (h : db.businesses = db'.businesses)
    (bid : Nat) : findBusiness db bid = findBusiness db' bid := by
  unfold findBusiness; rw [h]

/-- Balance reads depend only on the businesses table. -/
theorem balanceOf_eq_of_businesses {db db' : DB} (h : db.businesses = db'.businesses)
    (bid : Nat) : balanceOf db bid = balanceOf db' bid := by
  unfold balanceOf; rw [findBusiness_eq_of_businesses h]

/-- Transaction reads depend only on the transactions table. -/
theorem findTransaction_eq_of_transactions {db db' : DB}
    (h : db.transactions = db'.transactions) (txId : Nat) :
    findTransaction db txId = findTransaction db' txId := by
  unfold findTransaction; rw [h]

/-- The status the created transaction row carries is the requested one. -/
theorem createTx_status (db : DB) (bid : Nat) (ty : TransactionType)
    (cat : Option String) (amt : Int) (dsc : Option String)
    (st : TransactionStatus) (lines : List LineReq) :
    (createTxWithDetails db bid ty cat amt dsc st lines).2.status = st := rfl

/-- Creating a transaction does not touch the products table. -/
theorem createTx_products (db : DB) (bid : Nat) (ty : TransactionType)
    (cat : Option String) (amt : Int) (dsc : Option String)
    (st : TransactionStatus) (lines : List LineReq) :
    (createTxWithDetails db bid ty cat amt dsc st lines).1.products = db.products := rfl

/-- Creating a transaction does not touch the businesses table. -/
theorem createTx_businesses (db : DB) (bid : Nat) (ty : TransactionType)
    (cat : Option String) (amt : Int) (dsc : Option String)
    (st : TransactionStatus) (lines : List LineReq) :
    (createTxWithDetails db bid ty cat amt dsc st lines).1.businesses = db.businesses := rfl

/-- Creating a transaction appends exactly the new header row. -/
theorem createTx_transactions (db : DB) (bid : Nat) (ty : TransactionType)
    (cat : Option String) (amt : Int) (dsc : Option String)
    (st : TransactionStatus) (lines : List LineReq) :
    (createTxWithDetails db bid ty cat amt dsc st lines).1.transactions =
      db.transactions ++ [(createTxWithDetails db bid ty cat amt dsc st lines).2] := rfl

/-- The id of the created transaction row is the next sequence value. -/
theorem createTx_id (db : DB) (bid : Nat) (ty : TransactionType)
    (cat : Option String) (amt : Int) (dsc : Option String)
    (st : TransactionStatus) (lines : List LineReq) :
    (createTxWithDetails db bid ty cat amt dsc st lines).2.id = db.nextTxId := rfl

/-- A balance write fails when the oracle rejects it, leaving the store
unchanged. -/
theorem updateBalance_fail {env : Env} {bid : Nat} (db : DB) (v : Int)
    (hf : env.balanceFail bid = true) :
    updateBalance env db bid v = (db, false) := by
  unfold updateBalance
  rw [hf]
  rfl

/-- A stock write fails when the oracle rejects it, leaving the store
unchanged. -/
theorem updateStock_fail {env : Env} {pid : Nat} (db : DB) (v : Int)
    (hf : env.stockFail pid = true) :
    updateStock env db pid v = (db, false) := by
  unfold updateStock
  rw [hf]
  rfl

/-- Hard-deleting never touches products. -/
theorem hardDelete_products (db : DB) (txId : Nat) :
    (hardDeleteTransaction db txId).products = db.products := rfl

/-- Hard-deleting never touches businesses. -/
theorem hardDelete_businesses (db : DB) (txId : Nat) :
    (hardDeleteTransaction db txId).businesses = db.businesses := rfl

/-- `createGeneralTransaction` in the applying case: the created status
is `complete`, the business is found and the balance write is let
through; the balance is set to old ± amount and the transaction kept. -/
theorem createGeneral_complete_ok (env : Env) (db : DB) (businessId : Nat)
    (ttype : TransactionType) (category : Option String) (amount : Int)
    (desc : Option String) (st : Option TransactionStatus) (b : Business)
    (hst : st.getD .complete = .complete)
    (hb : findBusiness db businessId = some b)
    (hnf : env.balanceFail businessId = false) :
    createGeneralTransaction env db businessId ttype category amount desc st =
      ⟨updateBalanceDB
          (createTxWithDetails db businessId ttype category amount desc TransactionStatus.complete []).1
          businessId
          (if ttype = .Income then b.current_balance + amount else b.current_balance - amount),
        some (createTxWithDetails db businessId ttype category amount desc TransactionStatus.complete []).2,
        none⟩ := by
  have hb1 : findBusiness
      (createTxWithDetails db businessId ttype category amount desc TransactionStatus.complete []).1
      businessId = some b := by
    rw [findBusiness_eq_of_businesses
      (createTx_businesses db businessId ttype category amount desc TransactionStatus.complete [])]
    exact hb
  simp only [createGeneralTransaction, createTx_status, hst, eq_self_iff_true, if_true,
    ite_true, hb1]
  rw [updateBalance_ok
    (if ttype = .Income then b.current_balance + amount else b.current_balance - amount)
    hnf hb1]
  rfl

/-- `createGeneralTransaction` with an explicit non-complete status:
the transaction is created and the balance phase is skipped entirely. -/
theorem createGeneral_noncomplete (env : Env) (db : DB) (businessId : Nat)
    (ttype : TransactionType) (category : Option String) (amount : Int)
    (desc : Option String) (s : TransactionStatus)
    (hs : s ≠ TransactionStatus.complete) :
    createGeneralTransaction env db businessId ttype category amount desc (some s) =
      ⟨(createTxWithDetails db businessId ttype category amount desc s []).1,
        some (createTxWithDetails db businessId ttype category amount desc s []).2,
        none⟩ := by
  simp only [createGeneralTransaction, Option.getD_some, createTx_status]
  rw [if_neg hs]

/-- `createGeneralTransaction` with a complete status and a missing
business: the created transaction is hard-deleted and the error
surfaced. -/
theorem createGeneral_complete_nobiz (env : Env) (db : DB) (businessId : Nat)
    (ttype : TransactionType) (category : Option String) (amount : Int)
    (desc : Option String) (st : Option TransactionStatus)
    (hst : st.getD .complete = .complete)
    (hb : findBusiness db businessId = none) :
    createGeneralTransaction env db businessId ttype category amount desc st =
      ⟨hardDeleteTransaction
          (createTxWithDetails db businessId ttype category amount desc TransactionStatus.complete []).1
          (createTxWithDetails db businessId ttype category amount desc TransactionStatus.complete []).2.id,
        none, some .businessNotFoundDuringBalanceUpdate⟩ := by
  have hb1 : findBusiness
      (createTxWithDetails db businessId ttype category amount desc TransactionStatus.complete []).1
      businessId = none := by
    rw [findBusiness_eq_of_businesses
      (createTx_businesses db businessId ttype category amount desc TransactionStatus.complete [])]
    exact hb
  simp only [createGeneralTransaction, createTx_status, hst, eq_self_iff_true, if_true,
    ite_true, hb1]

/-- `createGeneralTransaction` with a complete status whose balance
write is rejected: the created transaction is hard-deleted and the
error surfaced. -/
theorem createGeneral_complete_balfail (env : Env) (db : DB) (businessId : Nat)
    (ttype : TransactionType) (category : Option String) (amount : Int)
    (desc : Option String) (st : Option TransactionStatus) (b : Business)
    (hst : st.getD .complete = .complete)
    (hb : findBusiness db businessId = some b)
    (hf : env.balanceFail businessId = true) :
    createGeneralTransaction env db businessId ttype category amount desc st =
      ⟨hardDeleteTransaction
          (createTxWithDetails db businessId ttype category amount desc TransactionStatus.complete []).1
          (createTxWithDetails db businessId ttype category amount desc TransactionStatus.complete []).2.id,
        none, some .balanceUpdateFailed⟩ := by
  have hb1 : findBusiness
      (createTxWithDetails db businessId ttype category amount desc TransactionStatus.complete []).1
      businessId = some b := by
    rw [findBusiness_eq_of_businesses
      (createTx_businesses db businessId ttype category amount desc TransactionStatus.complete [])]
    exact hb
  simp only [createGeneralTransaction, createTx_status, hst, eq_self_iff_true, if_true,
    ite_true, hb1]
  rw [updateBalance_fail _ _ hf]
  rfl

/-- Hard-deleting a transaction created on top of a well-formed store
restores the transactions table exactly. -/
theorem hardDelete_create_transactions (db : DB) (businessId : Nat)
    (ttype : TransactionType) (category : Option String) (amount : Int)
    (desc : Option String) (st : TransactionStatus) (lines : List LineReq)
    (hwf : WF db) :
    (hardDeleteTransaction
        (createTxWithDetails db businessId ttype category amount desc st lines).1
        (createTxWithDetails db businessId ttype category amount desc st lines).2.id).transactions =
      db.transactions := by
  show ((db.transactions ++ [(createTxWithDetails db businessId ttype category amount desc st lines).2]).filter
    fun t => !(t.id == (createTxWithDetails db businessId ttype category amount desc st lines).2.id)) = _
  apply filter_out_fresh_tx
  intro t ht
  rw [createTx_id]
  exact Nat.ne_of_lt (hwf.1 t ht)

/-- Hard-deleting a transaction created with no lines on top of a
well-formed store restores the details table exactly. -/
theorem hardDelete_create_details (db : DB) (businessId : Nat)
    (ttype : TransactionType) (category : Option String) (amount : Int)
    (desc : Option String) (st : TransactionStatus)
    (hwf : WF db) :
    (hardDeleteTransaction
        (createTxWithDetails db businessId ttype category amount desc st []).1
        (createTxWithDetails db businessId ttype category amount desc st []).2.id).details =
      db.details := by
  show ((db.details ++ []).filter
    fun (d : TransactionDetail) =>
      !(d.transaction_id == (createTxWithDetails db businessId ttype category amount desc st []).2.id)) = _
  rw [List.append_nil, List.filter_eq_self]
  intro d hd
  have : (d.transaction_id == (createTxWithDetails db businessId ttype category amount desc st []).2.id) = false := by
    rw [createTx_id]
    exact beq_eq_false_iff_ne.mpr (Nat.ne_of_lt (hwf.2 d hd))
  simp [this]

/-! ## Claim theorems -/

/-- C7: the stock-status resolver of the product service maps `0` to
`out`, `0 < n < 10` to `low` and `n ≥ 10` to `active` — these three
branches cover every non-negative integer — with the boundary values
`resolve 0 = out`, `resolve 1 = low`, `resolve 9 = low`,
`resolve 10 = active`, and the batch resync computes its status by
exactly the same mapping. -/
theorem claim_C7_resolver_exact :
    (∀ n : Nat,
      ((n : Int) = 0 → resolveStatus n = .out) ∧
      (0 < (n : Int) → (n : Int) < 10 → resolveStatus n = .low) ∧
      (10 ≤ (n : Int) → resolveStatus n = .active)) ∧
    resolveStatus 0 = .out ∧ resolveStatus 1 = .low ∧ resolveStatus 9 = .low ∧
    resolveStatus 10 = .active ∧
    (∀ p : Product, batchStatusOf p = resolveStatus p.current_stock) := by
  refine ⟨?_, by decide, by decide, by decide, by decide, fun p => rfl⟩
  intro n
  refine ⟨?_, ?_, ?_⟩
  · intro h; unfold resolveStatus; rw [if_pos h]
  · intro h1 h2; unfold resolveStatus
    rw [if_neg (by omega), if_pos h2]
  · intro h; unfold resolveStatus
    rw [if_neg (by omega), if_neg (by omega)]

/-- Witness for C7 at the concrete inputs 0, 5 and 12. -/
theorem claim_C7_witness :
    resolveStatus 0 = .out ∧ resolveStatus 5 = .low ∧ resolveStatus 12 = .active :=
  ⟨(claim_C7_resolver_exact.1 0).1 rfl,
   (claim_C7_resolver_exact.1 5).2.1 (by decide) (by decide),
   (claim_C7_resolver_exact.1 12).2.2 (by decide)⟩

/-- C6: for an existing transaction of the business,
`cancelTransaction` rewrites only its status to `cancel`: the products,
businesses and detail tables and the id sequence are untouched, the
transaction keeps every other field (amount, kind, owner, lines,
soft-delete marker), every other transaction row is untouched, and no
error is returned. -/
theorem claim_C6_cancel_only_status (db : DB) (businessId txId : Nat) (tx : Transaction)
    (hfind : findTransaction db txId = some tx)
    (hbiz : tx.business_id = businessId) :
    (cancelTransaction db businessId txId).db.products = db.products ∧
    (cancelTransaction db businessId txId).db.businesses = db.businesses ∧
    (cancelTransaction db businessId txId).db.details = db.details ∧
    (cancelTransaction db businessId txId).db.nextTxId = db.nextTxId ∧
    findTransaction (cancelTransaction db businessId txId).db txId =
      some { tx with status := .cancel } ∧
    (∀ t ∈ db.transactions, t.id ≠ txId →
      t ∈ (cancelTransaction db businessId txId).db.transactions) ∧
    (cancelTransaction db businessId txId).err = none := by
  have hres : cancelTransaction db businessId txId =
      ⟨{ db with
         transactions := db.transactions.map fun t =>
           if txKey txId t then { t with status := .cancel } else t },
        some { tx with status := .cancel }, none⟩ := by
    simp only [cancelTransaction, hfind]
    rw [if_neg (not_not.mpr hbiz)]
  rw [hres]
  refine ⟨rfl, rfl, rfl, rfl, ?_, ?_, rfl⟩
  · show (db.transactions.map fun t =>
      if txKey txId t then { t with status := .cancel } else t).find? (txKey txId) = _
    rw [find?_map_of_pres (txKey_cancel_write txId txId)]
    unfold findTransaction at hfind
    rw [hfind]
    have hkey : txKey txId tx = true := List.find?_some hfind
    simp [hkey]
  · intro t ht hne
    have hkey : txKey txId t = false := by
      have : (t.id == txId) = false := beq_eq_false_iff_ne.mpr hne
      simp [txKey, this]
    have : (if txKey txId t then { t with status := TransactionStatus.cancel } else t) = t := by
      simp [hkey]
    exact this ▸ List.mem_map_of_mem _ ht

/-- C10: when `createGeneralTransaction` is called with the status
field omitted, the transaction is created with status `complete` and
the balance delta (+amount for Income, −amount for Expense) is applied
to the business. -/
theorem claim_C10_omitted_status_defaults_complete (env : Env) (db : DB)
    (businessId : Nat) (ttype : TransactionType) (category : Option String)
    (amount : Int) (desc : Option String) (b : Business)
    (hb : findBusiness db businessId = some b)
    (hnf : env.balanceFail businessId = false) :
    (createGeneralTransaction env db businessId ttype category amount desc none).err = none ∧
    (∃ tx, (createGeneralTransaction env db businessId ttype category amount desc none).tx =
        some tx ∧ tx.status = .complete) ∧
    balanceOf (createGeneralTransaction env db businessId ttype category amount desc none).db
        businessId =
      some (if ttype = .Income then b.current_balance + amount
            else b.current_balance - amount) := by
  have h := createGeneral_complete_ok env db businessId ttype category amount desc none b
    rfl hb hnf
  rw [h]
  refine ⟨rfl, ⟨_, rfl, rfl⟩, ?_⟩
  exact balanceOf_updateBalanceDB_eq (by
    rw [findBusiness_eq_of_businesses
      (createTx_businesses db businessId ttype category amount desc TransactionStatus.complete [])]
    exact hb)

/-- Witness for C10: an Income of 100 with omitted status raises the
concrete balance from 5,000,000 to 5,000,100. -/
theorem claim_C10_witness :
    findBusiness fxDb12 1 = some fxBiz ∧ Env.noFail.balanceFail 1 = false ∧
    (createGeneralTransaction Env.noFail fxDb12 1 .Income none 100 none none).err = none ∧
    balanceOf (createGeneralTransaction Env.noFail fxDb12 1 .Income none 100 none none).db 1 =
      some 5000100 :=
  ⟨by decide, rfl,
   (claim_C10_omitted_status_defaults_complete Env.noFail fxDb12 1 .Income none 100 none
      fxBiz (by decide) rfl).1,
   ((claim_C10_omitted_status_defaults_complete Env.noFail fxDb12 1 .Income none 100 none
      fxBiz (by decide) rfl).2.2).trans (by decide)⟩

/-- C9: for `createGeneralTransaction` with an explicit status, the
balance is touched (by +amount for Income, −amount for Expense) exactly
when the created status is `complete`; with a `pending` or `cancel`
status the businesses table is untouched; and when the balance phase
fails (missing business or rejected write) the just-created transaction
is hard-deleted, so the transactions table is unchanged by the failed
call. -/
theorem claim_C9_explicit_status (env : Env) (db : DB) (businessId : Nat)
    (ttype : TransactionType) (category : Option String) (amount : Int)
    (desc : Option String) (s : TransactionStatus) (hwf : WF db) :
    (s ≠ .complete →
      (createGeneralTransaction env db businessId ttype category amount desc (some s)).err = none ∧
      (createGeneralTransaction env db businessId ttype category amount desc (some s)).db.businesses =
        db.businesses ∧
      (∃ tx, (createGeneralTransaction env db businessId ttype category amount desc (some s)).tx =
          some tx ∧ tx.status = s ∧
        findTransaction
          (createGeneralTransaction env db businessId ttype category amount desc (some s)).db
          tx.id = some tx)) ∧
    (s = .complete → ∀ b, findBusiness db businessId = some b →
      env.balanceFail businessId = false →
      (createGeneralTransaction env db businessId ttype category amount desc (some s)).err = none ∧
      balanceOf
          (createGeneralTransaction env db businessId ttype category amount desc (some s)).db
          businessId =
        some (if ttype = .Income then b.current_balance + amount
              else b.current_balance - amount) ∧
      (∃ tx, (createGeneralTransaction env db businessId ttype category amount desc (some s)).tx =
          some tx ∧ tx.status = .complete)) ∧
    (s = .complete →
      (findBusiness db businessId = none ∨ env.balanceFail businessId = true) →
      (createGeneralTransaction env db businessId ttype category amount desc (some s)).err ≠ none ∧
      (createGeneralTransaction env db businessId ttype category amount desc (some s)).tx = none ∧
      (createGeneralTransaction env db businessId ttype category amount desc (some s)).db.transactions =
        db.transactions ∧
      (createGeneralTransaction env db businessId ttype category amount desc (some s)).db.details =
        db.details ∧
      (createGeneralTransaction env db businessId ttype category amount desc (some s)).db.businesses =
        db.businesses) := by
  refine ⟨?_, ?_, ?_⟩
  · intro hs
    rw [createGeneral_noncomplete env db businessId ttype category amount desc s hs]
    refine ⟨rfl, rfl, _, rfl, rfl, ?_⟩
    show ((db.transactions ++
      [(createTxWithDetails db businessId ttype category amount desc s []).2]).find?
        (txKey (createTxWithDetails db businessId ttype category amount desc s []).2.id)) = _
    apply find?_txKey_append
    · intro t ht
      rw [createTx_id]
      exact Nat.ne_of_lt (hwf.1 t ht)
    · rfl
  · intro hs b hb hnf
    have h := createGeneral_complete_ok env db businessId ttype category amount desc (some s) b
      (by rw [Option.getD_some, hs]) hb hnf
    rw [h]
    refine ⟨rfl, ?_, ⟨_, rfl, rfl⟩⟩
    exact balanceOf_updateBalanceDB_eq (by
      rw [findBusiness_eq_of_businesses
        (createTx_businesses db businessId ttype category amount desc TransactionStatus.complete [])]
      exact hb)
  · intro hs hbad
    have hst : (some s).getD TransactionStatus.complete = .complete := by
      rw [Option.getD_some, hs]
    have hgoal : createGeneralTransaction env db businessId ttype category amount desc (some s) =
        ⟨hardDeleteTransaction
            (createTxWithDetails db businessId ttype category amount desc TransactionStatus.complete []).1
            (createTxWithDetails db businessId ttype category amount desc TransactionStatus.complete []).2.id,
          none, some .businessNotFoundDuringBalanceUpdate⟩ ∨
        createGeneralTransaction env db businessId ttype category amount desc (some s) =
        ⟨hardDeleteTransaction
            (createTxWithDetails db businessId ttype category amount desc TransactionStatus.complete []).1
            (createTxWithDetails db businessId ttype category amount desc TransactionStatus.complete []).2.id,
          none, some .balanceUpdateFailed⟩ := by
      cases hfb : findBusiness db businessId with
      | none =>
        exact Or.inl (createGeneral_complete_nobiz env db businessId ttype category amount
          desc (some s) hst hfb)
      | some b =>
        rcases hbad with hnone | hfail
        · rw [hfb] at hnone; cases hnone
        · exact Or.inr (createGeneral_complete_balfail env db businessId ttype category amount
            desc (some s) b hst hfb hfail)
    have htr := hardDelete_create_transactions db businessId ttype category amount desc
      TransactionStatus.complete [] hwf
    have hde := hardDelete_create_details db businessId ttype category amount desc
      TransactionStatus.complete hwf
    rcases hgoal with hres | hres <;> rw [hres] <;>
      exact ⟨fun h => Option.noConfusion h, rfl, htr, hde, rfl⟩

/-- Witness for C9: creating a complete Income of 100 against an
environment that rejects balance writes leaves the concrete store's
transactions table unchanged and surfaces the failure. -/
theorem claim_C9_witness :
    WF fxDb12 ∧
    (createGeneralTransaction fxEnvBal fxDb12 1 .Income none 100 none (some .complete)).err ≠ none ∧
    (createGeneralTransaction fxEnvBal fxDb12 1 .Income none 100 none (some .complete)).db.transactions =
      fxDb12.transactions ∧
    (createGeneralTransaction fxEnvBal fxDb12 1 .Income none 100 none (some .complete)).db.businesses =
      fxDb12.businesses := by
  have h := (claim_C9_explicit_status fxEnvBal fxDb12 1 .Income none 100 none .complete
    (by decide)).2.2 rfl (Or.inr rfl)
  exact ⟨by decide, h.1, h.2.2.1, h.2.2.2.2⟩

/-- The store a balance write returns never has a changed transactions
table, whether or not the write went through. -/
theorem updateBalance_transactions (env : Env) (db : DB) (bid : Nat) (v : Int) :
    (updateBalance env db bid v).1.transactions = db.transactions := by
  unfold updateBalance
  split_ifs <;> rfl

/-- The balance-adjust step of `updateGeneralTransaction` never touches
the transactions table. -/
theorem updateGeneralBalanceAdjust_transactions (env : Env) (db : DB)
    (businessId : Nat) (oldTx : Transaction) (p : UpdatePayload) :
    (updateGeneralBalanceAdjust env db businessId oldTx p).transactions =
      db.transactions := by
  unfold updateGeneralBalanceAdjust
  split
  · rfl
  · split
    · split
      · rfl
      · exact updateBalance_transactions env db businessId _
    · rfl

/-- C8 amended: `updateGeneralTransaction` writes a supplied `status`
through to the stored transaction: after a successful call the stored
status equals the payload's status when one is supplied, and the old
status only when the payload omits the field — so the operation leaves
`status` unchanged exactly when the update payload has no `status`. -/
theorem claim_C8_amended_status_passthrough (env : Env) (db : DB)
    (businessId txId : Nat) (p : UpdatePayload) (oldTx : Transaction)
    (hfind : findTransaction db txId = some oldTx)
    (hbiz : oldTx.business_id = businessId) :
    (updateGeneralTransaction env db businessId txId p).err = none ∧
    findTransaction (updateGeneralTransaction env db businessId txId p).db txId =
      some (applyUpdates oldTx p) ∧
    (applyUpdates oldTx p).status = p.status.getD oldTx.status ∧
    (p.status = none → (applyUpdates oldTx p).status = oldTx.status) := by
  simp only [updateGeneralTransaction, hfind]
  rw [if_neg (not_not.mpr hbiz)]
  refine ⟨rfl, ?_, rfl, ?_⟩
  · show (((updateGeneralBalanceAdjust env db businessId oldTx p).transactions.map fun t =>
      if txKey txId t then applyUpdates t p else t).find? (txKey txId)) = _
    rw [updateGeneralBalanceAdjust_transactions,
      find?_map_of_pres (txKey_applyUpdates txId txId p)]
    unfold findTransaction at hfind
    rw [hfind]
    have hkey : txKey txId oldTx = true := List.find?_some hfind
    simp [hkey]
  · intro h
    show p.status.getD oldTx.status = oldTx.status
    rw [h]
    rfl

/-- C8 counterexample: on the concrete store, updating the pending
transaction with a payload that supplies `status = complete` changes
the stored status from `pending` to `complete`, so the operation does
not always leave the status field unchanged. -/
theorem claim_C8_counterexample :
    findTransaction fxDbT 7 = some fxTxPending ∧
    fxTxPending.status = .pending ∧
    findTransaction
        (updateGeneralTransaction Env.noFail fxDbT 1 7 ⟨none, none, none, some .complete, none⟩).db
        7 =
      some ⟨7, 1, .Income, none, 100, none, .complete, none, false⟩ ∧
    TransactionStatus.complete ≠ TransactionStatus.pending := by decide

/-- Witness for the amended C8 on the concrete pending transaction. -/
theorem claim_C8_witness :
    findTransaction fxDbT 7 = some fxTxPending ∧ fxTxPending.business_id = 1 ∧
    (applyUpdates fxTxPending ⟨none, none, none, some .complete, none⟩).status =
      (some TransactionStatus.complete).getD fxTxPending.status ∧
    (updateGeneralTransaction Env.noFail fxDbT 1 7 ⟨none, none, none, some .complete, none⟩).err =
      none :=
  ⟨by decide, rfl,
   (claim_C8_amended_status_passthrough Env.noFail fxDbT 1 7
      ⟨none, none, none, some .complete, none⟩ fxTxPending (by decide) rfl).2.2.1,
   (claim_C8_amended_status_passthrough Env.noFail fxDbT 1 7
      ⟨none, none, none, some .complete, none⟩ fxTxPending (by decide) rfl).1⟩

/-- When some line is invalid, `validateSale` returns an error of one
of the two validation kinds with the reported fields taken from a
failing line. -/
theorem validateSale_bad {db : DB} :
    ∀ {items : List SaleItem},
    (∃ item ∈ items,
      findProduct db item.productId = none ∨
      ∃ p, findProduct db item.productId = some p ∧ p.current_stock < item.quantity) →
    ∃ e, validateSale db items = some e ∧
      ((∃ pid, e = .productNotFound pid ∧ findProduct db pid = none) ∨
       (∃ item ∈ items, ∃ p, findProduct db item.productId = some p ∧
          p.current_stock < item.quantity ∧
          e = .insufficientStock p.name p.current_stock item.quantity)) := by
  intro items
  induction items with
  | nil => rintro ⟨item, h, _⟩; cases h
  | cons it rest ih =>
    intro hbad
    cases hp : findProduct db it.productId with
    | none =>
      refine ⟨.productNotFound it.productId, ?_, Or.inl ⟨it.productId, rfl, hp⟩⟩
      simp [validateSale, hp]
    | some p =>
      by_cases hlt : p.current_stock < it.quantity
      · refine ⟨.insufficientStock p.name p.current_stock it.quantity, ?_,
          Or.inr ⟨it, List.mem_cons_self it rest, p, hp, hlt, rfl⟩⟩
        simp [validateSale, hp, hlt]
      · have hrest : ∃ item ∈ rest,
            findProduct db item.productId = none ∨
            ∃ q, findProduct db item.productId = some q ∧ q.current_stock < item.quantity := by
          obtain ⟨item, hmem, hcase⟩ := hbad
          rcases List.mem_cons.mp hmem with heq | hmemr
          · exfalso
            subst heq
            rcases hcase with hnone | ⟨q, hq, hqlt⟩
            · rw [hp] at hnone; cases hnone
            · rw [hp] at hq
              cases hq
              exact hlt hqlt
          · exact ⟨item, hmemr, hcase⟩
        obtain ⟨e, hval, hshape⟩ := ih hrest
        refine ⟨e, ?_, ?_⟩
        · simp [validateSale, hp, hlt, hval]
        · rcases hshape with h1 | ⟨item, hmem, rest'⟩
          · exact Or.inl h1
          · exact Or.inr ⟨item, List.mem_cons_of_mem _ hmem, rest'⟩

/-- A validation error makes `recordProductSale` return it with the
store untouched and no transaction. -/
theorem recordProductSale_validation_aborts (env : Env) (db : DB) (businessId : Nat)
    (items : List SaleItem) (desc : Option String) {e : SvcError}
    (h : validateSale db items = some e) :
    recordProductSale env db businessId items desc = ⟨db, none, some e⟩ := by
  simp only [recordProductSale, h]

/-- C4: whenever some sale line's product is missing or underStocked,
the whole `recordProductSale` call fails before performing any write —
the store is returned exactly as it was, no transaction is created, and
the error is the validation error (`NotFound` for a missing product, or
`InsufficientStock` carrying the available and requested amounts of a
failing line). -/
theorem claim_C4_validation_blocks_call (env : Env) (db : DB) (businessId : Nat)
    (items : List SaleItem) (desc : Option String)
    (hbad : ∃ item ∈ items,
      findProduct db item.productId = none ∨
      ∃ p, findProduct db item.productId = some p ∧ p.current_stock < item.quantity) :
    ∃ e, validateSale db items = some e ∧
      recordProductSale env db businessId items desc = ⟨db, none, some e⟩ ∧
      ((∃ pid, e = .productNotFound pid ∧ findProduct db pid = none) ∨
       (∃ item ∈ items, ∃ p, findProduct db item.productId = some p ∧
          p.current_stock < item.quantity ∧
          e = .insufficientStock p.name p.current_stock item.quantity)) := by
  obtain ⟨e, hval, hshape⟩ := validateSale_bad hbad
  exact ⟨e, hval, recordProductSale_validation_aborts env db businessId items desc hval, hshape⟩

/-- Witness for C4: selling 5 from a stock of 3 fails with the
insufficient-stock error reporting 3 available and 5 requested, and the
store is unchanged. -/
theorem claim_C4_witness :
    (∃ item ∈ [(⟨1, 5, 75000⟩ : SaleItem)],
      findProduct fxDb3 item.productId = none ∨
      ∃ p, findProduct fxDb3 item.productId = some p ∧ p.current_stock < item.quantity) ∧
    (∃ e, validateSale fxDb3 [(⟨1, 5, 75000⟩ : SaleItem)] = some e ∧
      recordProductSale Env.noFail fxDb3 1 [(⟨1, 5, 75000⟩ : SaleItem)] none =
        ⟨fxDb3, none, some e⟩ ∧
      ((∃ pid, e = .productNotFound pid ∧ findProduct fxDb3 pid = none) ∨
       (∃ item ∈ [(⟨1, 5, 75000⟩ : SaleItem)], ∃ p,
          findProduct fxDb3 item.productId = some p ∧
          p.current_stock < item.quantity ∧
          e = .insufficientStock p.name p.current_stock item.quantity))) ∧
    recordProductSale Env.noFail fxDb3 1 [(⟨1, 5, 75000⟩ : SaleItem)] none =
      ⟨fxDb3, none, some (.insufficientStock "P1" 3 5)⟩ := by
  have hbad : ∃ item ∈ [(⟨1, 5, 75000⟩ : SaleItem)],
      findProduct fxDb3 item.productId = none ∨
      ∃ p, findProduct fxDb3 item.productId = some p ∧ p.current_stock < item.quantity :=
    ⟨⟨1, 5, 75000⟩, List.mem_cons_self _ _,
      Or.inr ⟨⟨1, 1, "P1", 3, .low, false⟩, by decide, by decide⟩⟩
  exact ⟨hbad, claim_C4_validation_blocks_call Env.noFail fxDb3 1 _ none hbad, by decide⟩

/-- C1 amended: in a two-line sale over distinct products whose
validation passes, if the second line's stock write fails after the
first line's succeeded, the created Transaction and its lines are
hard-deleted and the failure returned, but the first line's stock is
NOT restored: it keeps the decremented value (stock restoration happens
only in the balance-phase rollback); the second product's stock and the
businesses table are unchanged. -/
theorem claim_C1_amended_stock_kept_on_stock_failure (env : Env) (db : DB)
    (businessId : Nat) (item1 item2 : SaleItem) (desc : Option String)
    (p1 p2 : Product) (hwf : WF db)
    (hp1 : findProduct db item1.productId = some p1)
    (hp2 : findProduct db item2.productId = some p2)
    (hq1 : item1.quantity ≤ p1.current_stock)
    (hq2 : item2.quantity ≤ p2.current_stock)
    (hne : item1.productId ≠ item2.productId)
    (hf1 : env.stockFail item1.productId = false)
    (hf2 : env.stockFail item2.productId = true) :
    (recordProductSale env db businessId [item1, item2] desc).err =
      some (.stockUpdateFailed item2.productId) ∧
    (recordProductSale env db businessId [item1, item2] desc).tx = none ∧
    stockOf (recordProductSale env db businessId [item1, item2] desc).db item1.productId =
      some (p1.current_stock - item1.quantity) ∧
    stockOf (recordProductSale env db businessId [item1, item2] desc).db item2.productId =
      some p2.current_stock ∧
    (recordProductSale env db businessId [item1, item2] desc).db.transactions =
      db.transactions ∧
    (recordProductSale env db businessId [item1, item2] desc).db.details = db.details ∧
    (recordProductSale env db businessId [item1, item2] desc).db.businesses =
      db.businesses := by
  have hval : validateSale db [item1, item2] = none := by
    simp only [validateSale, hp1, hp2]
    rw [if_neg (not_lt.mpr hq1), if_neg (not_lt.mpr hq2)]
  have hp1' : findProduct
      (createTxWithDetails db businessId .Income (some "Sales")
        ([item1, item2].foldl (fun s item => s + item.quantity * item.sellingPrice) 0)
        (some (desc.getD "Product sale")) .complete
        ([item1, item2].map fun item => ⟨item.productId, item.quantity, item.sellingPrice⟩)).1
      item1.productId = some p1 := by
    rw [findProduct_eq_of_products (createTx_products db businessId .Income (some "Sales")
      ([item1, item2].foldl (fun s item => s + item.quantity * item.sellingPrice) 0)
      (some (desc.getD "Product sale")) .complete
      ([item1, item2].map fun item => ⟨item.productId, item.quantity, item.sellingPrice⟩))]
    exact hp1
  have hp2' : findProduct
      (createTxWithDetails db businessId .Income (some "Sales")
        ([item1, item2].foldl (fun s item => s + item.quantity * item.sellingPrice) 0)
        (some (desc.getD "Product sale")) .complete
        ([item1, item2].map fun item => ⟨item.productId, item.quantity, item.sellingPrice⟩)).1
      item2.productId = some p2 := by
    rw [findProduct_eq_of_products (createTx_products db businessId .Income (some "Sales")
      ([item1, item2].foldl (fun s item => s + item.quantity * item.sellingPrice) 0)
      (some (desc.getD "Product sale")) .complete
      ([item1, item2].map fun item => ⟨item.productId, item.quantity, item.sellingPrice⟩))]
    exact hp2
  set db1 := (createTxWithDetails db businessId .Income (some "Sales")
    ([item1, item2].foldl (fun s item => s + item.quantity * item.sellingPrice) 0)
    (some (desc.getD "Product sale")) .complete
    ([item1, item2].map fun item => ⟨item.productId, item.quantity, item.sellingPrice⟩)).1
    with hdb1
  set tx := (createTxWithDetails db businessId .Income (some "Sales")
    ([item1, item2].foldl (fun s item => s + item.quantity * item.sellingPrice) 0)
    (some (desc.getD "Product sale")) .complete
    ([item1, item2].map fun item => ⟨item.productId, item.quantity, item.sellingPrice⟩)).2
    with htx
  set db2 := updateStockDB db1 item1.productId (p1.current_stock - item1.quantity) with hdb2
  have hp2'' : findProduct db2 item2.productId = some p2 := by
    rw [hdb2, findProduct_updateStockDB, hp2']
    have hkey : prodKey item1.productId p2 = false := by
      have hid : p2.id = item2.productId := (findProduct_key hp2).1
      have : (p2.id == item1.productId) = false :=
        beq_eq_false_iff_ne.mpr (by rw [hid]; exact fun h => hne h.symm)
      simp [prodKey, this]
    simp [hkey]
  have hloop : saleStockLoop env tx.id db1 [item1, item2] =
      (hardDeleteTransaction db2 tx.id, some (.stockUpdateFailed item2.productId)) := by
    simp only [saleStockLoop, hp1']
    rw [updateStock_ok (p1.current_stock - item1.quantity) hf1 hp1']
    simp only [saleStockLoop, hp2'']
    rw [updateStock_fail db2 (p2.current_stock - item2.quantity) hf2]
    rfl
  have hres : recordProductSale env db businessId [item1, item2] desc =
      ⟨hardDeleteTransaction db2 tx.id, none, some (.stockUpdateFailed item2.productId)⟩ := by
    simp only [recordProductSale, hval, hloop]
  rw [hres]
  have hfreshT : ∀ t ∈ db.transactions, t.id ≠ tx.id := by
    intro t ht
    rw [htx, createTx_id]
    exact Nat.ne_of_lt (hwf.1 t ht)
  refine ⟨rfl, rfl, ?_, ?_, ?_, ?_, rfl⟩
  · rw [stockOf_eq_of_products (hardDelete_products db2 tx.id) item1.productId, hdb2]
    exact stockOf_updateStockDB_eq hp1'
  · rw [stockOf_eq_of_products (hardDelete_products db2 tx.id) item2.productId]
    unfold stockOf
    rw [hp2'']
    rfl
  · show (db2.transactions.filter fun t => !(t.id == tx.id)) = db.transactions
    have : db2.transactions = db.transactions ++ [tx] := by
      rw [hdb2, updateStockDB_transactions, hdb1, createTx_transactions, htx]
    rw [this]
    exact filter_out_fresh_tx hfreshT
  · show (db2.details.filter fun d => !(d.transaction_id == tx.id)) = db.details
    have : db2.details = db.details ++
        (([item1, item2].map fun item =>
          (⟨item.productId, item.quantity, item.sellingPrice⟩ : LineReq)).map fun l =>
          ({ transaction_id := tx.id, product_id := l.productId, quantity := l.quantity,
             unit_price_at_transaction := l.unitPrice } : TransactionDetail)) := by
      rw [hdb2, updateStockDB_details, hdb1, htx]
      rfl
    rw [this]
    have hfreshD : ∀ d ∈ db.details, d.transaction_id ≠ tx.id := by
      intro d hd
      rw [htx, createTx_id]
      exact Nat.ne_of_lt (hwf.2 d hd)
    exact filter_out_fresh_details hfreshD saleLines_txid

/-- C1 counterexample: in the concrete two-line sale where the second
line's stock write fails, the first product's stock after the failed
call is 7, not its pre-call value 12 — the claimed restoration of
earlier lines' stock does not happen. -/
theorem claim_C1_counterexample :
    stockOf fxDbTwo 1 = some 12 ∧
    (recordProductSale fxEnvStock2 fxDbTwo 1
        [(⟨1, 5, 75000⟩ : SaleItem), (⟨2, 3, 60000⟩ : SaleItem)] none).err ≠ none ∧
    stockOf (recordProductSale fxEnvStock2 fxDbTwo 1
        [(⟨1, 5, 75000⟩ : SaleItem), (⟨2, 3, 60000⟩ : SaleItem)] none).db 1 = some 7 ∧
    (some (7 : Int) ≠ some (12 : Int)) := by decide

/-- Witness for the amended C1 on the concrete two-product store. -/
theorem claim_C1_witness :
    WF fxDbTwo ∧
    (recordProductSale fxEnvStock2 fxDbTwo 1
        [(⟨1, 5, 75000⟩ : SaleItem), (⟨2, 3, 60000⟩ : SaleItem)] none).err =
      some (.stockUpdateFailed 2) ∧
    stockOf (recordProductSale fxEnvStock2 fxDbTwo 1
        [(⟨1, 5, 75000⟩ : SaleItem), (⟨2, 3, 60000⟩ : SaleItem)] none).db 1 = some (12 - 5) ∧
    (recordProductSale fxEnvStock2 fxDbTwo 1
        [(⟨1, 5, 75000⟩ : SaleItem), (⟨2, 3, 60000⟩ : SaleItem)] none).db.transactions =
      fxDbTwo.transactions := by
  have h := claim_C1_amended_stock_kept_on_stock_failure fxEnvStock2 fxDbTwo 1
    ⟨1, 5, 75000⟩ ⟨2, 3, 60000⟩ none fxProd12 fxProd20 (by decide) (by decide) (by decide)
    (by decide) (by decide) (by decide) rfl rfl
  exact ⟨by decide, h.1, h.2.2.1, h.2.2.2.2.1⟩

/-- C2: evaluation of the code at the failing input — starting from a
store whose every stock is non-negative (0, then 20 after the purchase,
then 5 after the sale), deleting the completed purchase (Expense)
transaction succeeds and writes a stock of −15, driving the product's
stock below zero. -/
theorem claim_C2_delete_purchase_goes_negative :
    stockOf fxDb0 1 = some 0 ∧
    fxRunPurchase.err = none ∧ stockOf fxRunPurchase.db 1 = some 20 ∧
    fxRunSaleAfter.err = none ∧ stockOf fxRunSaleAfter.db 1 = some 5 ∧
    fxRunDelete.success = true ∧ fxRunDelete.err = none ∧
    stockOf fxRunDelete.db 1 = some (-15) ∧
    ((-15 : Int) < 0) := by decide

/-- C3: evaluation of the code at the failing input — a sale of 5 from
stock 12 leaves the stored status at `active` while the resolver maps
the new stock 7 to `low`: the sale path writes stock without
recomputing the derived status. -/
theorem claim_C3_sale_leaves_status_stale :
    statusOf fxDb12 1 = some .active ∧
    resolveStatus 12 = .active ∧
    fxRunSale12.err = none ∧
    stockOf fxRunSale12.db 1 = some 7 ∧
    statusOf fxRunSale12.db 1 = some .active ∧
    resolveStatus 7 = .low ∧
    StockStatus.active ≠ StockStatus.low := by decide

/-- Mapping first by subtracting and then by adding the same total is
the identity on an optional stock value. -/
theorem map_sub_then_add (o : Option Int) (S : Int) :
    ((o.map fun s => s - S).map fun s => s + S) = o := by
  cases o <;> simp

/-- Characterization of a successful `recordProductSale` in the
all-success environment: the new transaction and its lines are
appended, every product's stock drops by its total requested quantity,
and the business balance rises by the total amount. -/
theorem recordProductSale_noFail_success (db : DB) (businessId : Nat)
    (items : List SaleItem) (desc : Option String) (b : Business)
    (hv : validateSale db items = none)
    (hfb : findBusiness db businessId = some b) :
    ∃ db', recordProductSale Env.noFail db businessId items desc =
      ⟨db',
        some (createTxWithDetails db businessId .Income (some "Sales")
          (items.foldl (fun s item => s + item.quantity * item.sellingPrice) 0)
          (some (desc.getD "Product sale")) .complete
          (items.map fun item => ⟨item.productId, item.quantity, item.sellingPrice⟩)).2,
        none⟩ ∧
      db'.transactions = db.transactions ++
        [(createTxWithDetails db businessId .Income (some "Sales")
          (items.foldl (fun s item => s + item.quantity * item.sellingPrice) 0)
          (some (desc.getD "Product sale")) .complete
          (items.map fun item => ⟨item.productId, item.quantity, item.sellingPrice⟩)).2] ∧
      db'.details = db.details ++
        ((items.map fun item =>
          (⟨item.productId, item.quantity, item.sellingPrice⟩ : LineReq)).map fun l =>
          ({ transaction_id := db.nextTxId, product_id := l.productId, quantity := l.quantity,
             unit_price_at_transaction := l.unitPrice } : TransactionDetail)) ∧
      (∀ pid, stockOf db' pid = (stockOf db pid).map fun s => s - saleQty items pid) ∧
      (∀ pid, (findProduct db' pid).isSome = (findProduct db pid).isSome) ∧
      balanceOf db' businessId =
        some (b.current_balance +
          items.foldl (fun s item => s + item.quantity * item.sellingPrice) 0) ∧
      (∀ bid, bid ≠ businessId → balanceOf db' bid = balanceOf db bid) := by
  have hex1 : ∀ item ∈ items,
      (findProduct (createTxWithDetails db businessId .Income (some "Sales")
        (items.foldl (fun s item => s + item.quantity * item.sellingPrice) 0)
        (some (desc.getD "Product sale")) .complete
        (items.map fun item => ⟨item.productId, item.quantity, item.sellingPrice⟩)).1
        item.productId).isSome = true := by
    intro item hm
    obtain ⟨p, hp, _⟩ := validateSale_none hv item hm
    rw [findProduct_eq_of_products (createTx_products db businessId .Income (some "Sales")
      (items.foldl (fun s item => s + item.quantity * item.sellingPrice) 0)
      (some (desc.getD "Product sale")) .complete
      (items.map fun item => ⟨item.productId, item.quantity, item.sellingPrice⟩)), hp]
    rfl
  obtain ⟨db2, hloop, hb2, ht2, hd2, hn2, hsome2, hstock2⟩ :=
    saleStockLoop_noFail
      (createTxWithDetails db businessId .Income (some "Sales")
        (items.foldl (fun s item => s + item.quantity * item.sellingPrice) 0)
        (some (desc.getD "Product sale")) .complete
        (items.map fun item => ⟨item.productId, item.quantity, item.sellingPrice⟩)).2.id
      items
      (createTxWithDetails db businessId .Income (some "Sales")
        (items.foldl (fun s item => s + item.quantity * item.sellingPrice) 0)
        (some (desc.getD "Product sale")) .complete
        (items.map fun item => ⟨item.productId, item.quantity, item.sellingPrice⟩)).1
      hex1
  have hb2' : db2.businesses = db.businesses := hb2.trans rfl
  have hfb2 : findBusiness db2 businessId = some b := by
    rw [findBusiness_eq_of_businesses hb2']
    exact hfb
  have hub := @updateBalance_ok Env.noFail db2 businessId b
    (b.current_balance + items.foldl (fun s item => s + item.quantity * item.sellingPrice) 0)
    rfl hfb2
  refine ⟨updateBalanceDB db2 businessId
      (b.current_balance + items.foldl (fun s item => s + item.quantity * item.sellingPrice) 0),
    ?_, ?_, ?_, ?_, ?_, ?_, ?_⟩
  · simp only [recordProductSale, hv, hloop, hfb2, hub]
    rfl
  · rw [updateBalanceDB_transactions, ht2]
    rfl
  · rw [updateBalanceDB_details, hd2]
    rfl
  · intro pid
    rw [stockOf_eq_of_products (updateBalanceDB_products db2 businessId _) pid, hstock2 pid,
      stockOf_eq_of_products
        (createTx_products db businessId .Income (some "Sales")
          (items.foldl (fun s item => s + item.quantity * item.sellingPrice) 0)
          (some (desc.getD "Product sale")) .complete
          (items.map fun item => ⟨item.productId, item.quantity, item.sellingPrice⟩)) pid]
  · intro pid
    rw [show (findProduct (updateBalanceDB db2 businessId
        (b.current_balance + items.foldl (fun s item => s + item.quantity * item.sellingPrice) 0))
        pid) = findProduct db2 pid from
      findProduct_eq_of_products (updateBalanceDB_products db2 businessId _) pid]
    rw [hsome2 pid]
    rw [show findProduct (createTxWithDetails db businessId .Income (some "Sales")
        (items.foldl (fun s item => s + item.quantity * item.sellingPrice) 0)
        (some (desc.getD "Product sale")) .complete
        (items.map fun item => ⟨item.productId, item.quantity, item.sellingPrice⟩)).1 pid =
      findProduct db pid from
      findProduct_eq_of_products (createTx_products db businessId .Income (some "Sales")
        (items.foldl (fun s item => s + item.quantity * item.sellingPrice) 0)
        (some (desc.getD "Product sale")) .complete
        (items.map fun item => ⟨item.productId, item.quantity, item.sellingPrice⟩)) pid]
  · exact balanceOf_updateBalanceDB_eq hfb2
  · intro bid hne
    rw [balanceOf_updateBalanceDB_ne hne, balanceOf_eq_of_businesses hb2']

/-- Replacing the transactions table does not change stock reads. -/
theorem stockOf_set_transactions (db : DB) (l : List Transaction) (pid : Nat) :
    stockOf { db with transactions := l } pid = stockOf db pid := rfl

/-- Replacing the transactions table does not change balance reads. -/
theorem balanceOf_set_transactions (db : DB) (l : List Transaction) (bid : Nat) :
    balanceOf { db with transactions := l } bid = balanceOf db bid := rfl

/-- The business owner recorded on the created transaction row. -/
theorem createTx_business_id (db : DB) (bid : Nat) (ty : TransactionType)
    (cat : Option String) (amt : Int) (dsc : Option String)
    (st : TransactionStatus) (lines : List LineReq) :
    (createTxWithDetails db bid ty cat amt dsc st lines).2.business_id = bid := rfl

/-- The kind recorded on the created transaction row. -/
theorem createTx_ttype (db : DB) (bid : Nat) (ty : TransactionType)
    (cat : Option String) (amt : Int) (dsc : Option String)
    (st : TransactionStatus) (lines : List LineReq) :
    (createTxWithDetails db bid ty cat amt dsc st lines).2.ttype = ty := rfl

/-- The amount recorded on the created transaction row. -/
theorem createTx_amount (db : DB) (bid : Nat) (ty : TransactionType)
    (cat : Option String) (amt : Int) (dsc : Option String)
    (st : TransactionStatus) (lines : List LineReq) :
    (createTxWithDetails db bid ty cat amt dsc st lines).2.amount = amt := rfl

/-- Characterization of `deleteTransaction` on a found, owned,
completed Income transaction in the all-success environment: it
soft-deletes the row, adds each detail's quantity back to its product
and subtracts the amount from the business balance. -/
theorem deleteTransaction_noFail_income (db' : DB) (businessId : Nat)
    (txC : Transaction) (bP : Business)
    (hfindT : findTransaction db' txC.id = some txC)
    (hbiz : txC.business_id = businessId)
    (hst : txC.status = .complete)
    (hty : txC.ttype = .Income)
    (hfbP : findBusiness db' businessId = some bP)
    (hexd : ∀ d ∈ detailsOf db' txC.id, (findProduct db' d.product_id).isSome = true) :
    ∃ db5, deleteTransaction Env.noFail db' businessId txC.id = ⟨db5, true, none⟩ ∧
      (∀ pid, stockOf db5 pid =
        (stockOf db' pid).map fun s => s + detailQty (detailsOf db' txC.id) pid) ∧
      balanceOf db5 businessId = some (bP.current_balance - txC.amount) ∧
      (∀ bid, bid ≠ businessId → balanceOf db5 bid = balanceOf db' bid) := by
  have hnb : (if txC.ttype = TransactionType.Income
      then bP.current_balance - txC.amount else bP.current_balance + txC.amount) =
      bP.current_balance - txC.amount := by rw [if_pos hty]
  have hub := @updateBalance_ok Env.noFail db' businessId bP
    (bP.current_balance - txC.amount) rfl hfbP
  have hexB : ∀ d ∈ detailsOf db' txC.id,
      (findProduct (updateBalanceDB db' businessId (bP.current_balance - txC.amount))
        d.product_id).isSome = true := by
    intro d hd
    rw [findProduct_eq_of_products (updateBalanceDB_products db' businessId _)]
    exact hexd d hd
  obtain ⟨hbR, htR, hdR, hnR, hstockR⟩ :=
    deleteReverseStock_noFail_income (detailsOf db' txC.id)
      (updateBalanceDB db' businessId (bP.current_balance - txC.amount)) hexB
  have hfindT4 : findTransaction
      (deleteReverseStock Env.noFail .Income
        (updateBalanceDB db' businessId (bP.current_balance - txC.amount))
        (detailsOf db' txC.id)) txC.id = some txC := by
    rw [findTransaction_eq_of_transactions
      (htR.trans (updateBalanceDB_transactions db' businessId _))]
    exact hfindT
  have hsd := softDelete_ok hfindT4
  have hub1 : (updateBalance Env.noFail db' businessId (bP.current_balance - txC.amount)).1 =
      updateBalanceDB db' businessId (bP.current_balance - txC.amount) := by rw [hub]
  have hdel : deleteTransaction Env.noFail db' businessId txC.id =
      ⟨{ (deleteReverseStock Env.noFail .Income
            (updateBalanceDB db' businessId (bP.current_balance - txC.amount))
            (detailsOf db' txC.id)) with
          transactions :=
            (deleteReverseStock Env.noFail .Income
              (updateBalanceDB db' businessId (bP.current_balance - txC.amount))
              (detailsOf db' txC.id)).transactions.map fun t =>
              if txKey txC.id t then { t with deleted := true } else t },
        true, none⟩ := by
    simp only [deleteTransaction, hfindT]
    rw [if_neg (not_not.mpr hbiz), if_pos hst]
    simp only [hfbP]
    rw [hnb, hub1, hty, hsd]
    rfl
  refine ⟨_, hdel, ?_, ?_, ?_⟩
  · intro pid
    rw [stockOf_set_transactions, hstockR pid,
      stockOf_eq_of_products (updateBalanceDB_products db' businessId _) pid]
  · rw [balanceOf_set_transactions, balanceOf_eq_of_businesses hbR businessId]
    exact balanceOf_updateBalanceDB_eq hfbP
  · intro bid hne
    rw [balanceOf_set_transactions, balanceOf_eq_of_businesses hbR bid]
    exact balanceOf_updateBalanceDB_ne hne

/-- C5: deleting the completed transaction returned by a successful
sale restores every product's stock and every business balance to their
pre-sale values — delete is the inverse of a completed sale. -/
theorem claim_C5_delete_inverts_sale (db : DB) (businessId : Nat)
    (items : List SaleItem) (desc : Option String) (tx : Transaction)
    (hwf : WF db)
    (htx : (recordProductSale Env.noFail db businessId items desc).tx = some tx) :
    (deleteTransaction Env.noFail (recordProductSale Env.noFail db businessId items desc).db
        businessId tx.id).success = true ∧
    (∀ pid, stockOf (deleteTransaction Env.noFail
        (recordProductSale Env.noFail db businessId items desc).db businessId tx.id).db pid =
      stockOf db pid) ∧
    (∀ bid, balanceOf (deleteTransaction Env.noFail
        (recordProductSale Env.noFail db businessId items desc).db businessId tx.id).db bid =
      balanceOf db bid) := by
  cases hv : validateSale db items with
  | some e =>
    rw [recordProductSale_validation_aborts Env.noFail db businessId items desc hv] at htx
    exact Option.noConfusion htx
  | none =>
  cases hfb : findBusiness db businessId with
  | none =>
    exfalso
    have hex1 : ∀ item ∈ items,
        (findProduct (createTxWithDetails db businessId .Income (some "Sales")
          (items.foldl (fun s item => s + item.quantity * item.sellingPrice) 0)
          (some (desc.getD "Product sale")) .complete
          (items.map fun item => ⟨item.productId, item.quantity, item.sellingPrice⟩)).1
          item.productId).isSome = true := by
      intro item hm
      obtain ⟨p, hp, _⟩ := validateSale_none hv item hm
      rw [findProduct_eq_of_products (createTx_products db businessId .Income (some "Sales")
        (items.foldl (fun s item => s + item.quantity * item.sellingPrice) 0)
        (some (desc.getD "Product sale")) .complete
        (items.map fun item => ⟨item.productId, item.quantity, item.sellingPrice⟩)), hp]
      rfl
    obtain ⟨db2, hloop, hb2, _, _, _, _, _⟩ :=
      saleStockLoop_noFail
        (createTxWithDetails db businessId .Income (some "Sales")
          (items.foldl (fun s item => s + item.quantity * item.sellingPrice) 0)
          (some (desc.getD "Product sale")) .complete
          (items.map fun item => ⟨item.productId, item.quantity, item.sellingPrice⟩)).2.id
        items
        (createTxWithDetails db businessId .Income (some "Sales")
          (items.foldl (fun s item => s + item.quantity * item.sellingPrice) 0)
          (some (desc.getD "Product sale")) .complete
          (items.map fun item => ⟨item.productId, item.quantity, item.sellingPrice⟩)).1
        hex1
    have hfb2 : findBusiness db2 businessId = none := by
      rw [findBusiness_eq_of_businesses (hb2.trans rfl)]
      exact hfb
    have hnone : (recordProductSale Env.noFail db businessId items desc).tx = none := by
      simp only [recordProductSale, hv, hloop, hfb2]
    rw [hnone] at htx
    exact Option.noConfusion htx
  | some b =>
    obtain ⟨db', hres, htr', hde', hstock', hsome', hbal', hbalne'⟩ :=
      recordProductSale_noFail_success db businessId items desc b hv hfb
    simp only [hres] at htx ⊢
    have htxeq : tx = (createTxWithDetails db businessId .Income (some "Sales")
        (items.foldl (fun s item => s + item.quantity * item.sellingPrice) 0)
        (some (desc.getD "Product sale")) .complete
        (items.map fun item => ⟨item.productId, item.quantity, item.sellingPrice⟩)).2 :=
      (Option.some.inj htx).symm
    subst htxeq
    have hfresh : ∀ t ∈ db.transactions,
        t.id ≠ (createTxWithDetails db businessId .Income (some "Sales")
          (items.foldl (fun s item => s + item.quantity * item.sellingPrice) 0)
          (some (desc.getD "Product sale")) .complete
          (items.map fun item => ⟨item.productId, item.quantity, item.sellingPrice⟩)).2.id := by
      intro t ht
      rw [createTx_id]
      exact Nat.ne_of_lt (hwf.1 t ht)
    have hfindT : findTransaction db'
        (createTxWithDetails db businessId .Income (some "Sales")
          (items.foldl (fun s item => s + item.quantity * item.sellingPrice) 0)
          (some (desc.getD "Product sale")) .complete
          (items.map fun item => ⟨item.productId, item.quantity, item.sellingPrice⟩)).2.id =
        some (createTxWithDetails db businessId .Income (some "Sales")
          (items.foldl (fun s item => s + item.quantity * item.sellingPrice) 0)
          (some (desc.getD "Product sale")) .complete
          (items.map fun item => ⟨item.productId, item.quantity, item.sellingPrice⟩)).2 := by
      unfold findTransaction
      rw [htr']
      exact find?_txKey_append hfresh rfl
    obtain ⟨bP, hfbP, hbPcb⟩ : ∃ bP, findBusiness db' businessId = some bP ∧
        bP.current_balance = b.current_balance +
          items.foldl (fun s item => s + item.quantity * item.sellingPrice) 0 := by
      unfold balanceOf at hbal'
      cases hfbP : findBusiness db' businessId with
      | none => rw [hfbP] at hbal'; exact Option.noConfusion hbal'
      | some bP =>
        rw [hfbP] at hbal'
        exact ⟨bP, rfl, Option.some.inj hbal'⟩
    have hdts : detailsOf db'
        (createTxWithDetails db businessId .Income (some "Sales")
          (items.foldl (fun s item => s + item.quantity * item.sellingPrice) 0)
          (some (desc.getD "Product sale")) .complete
          (items.map fun item => ⟨item.productId, item.quantity, item.sellingPrice⟩)).2.id =
        ((items.map fun item =>
          (⟨item.productId, item.quantity, item.sellingPrice⟩ : LineReq)).map fun l =>
          ({ transaction_id := db.nextTxId, product_id := l.productId, quantity := l.quantity,
             unit_price_at_transaction := l.unitPrice } : TransactionDetail)) := by
      unfold detailsOf
      rw [hde']
      apply filter_in_fresh_details
      · intro d hd
        rw [createTx_id]
        exact Nat.ne_of_lt (hwf.2 d hd)
      · intro d hd
        rw [createTx_id]
        exact saleLines_txid d hd
    have hexd : ∀ d ∈ detailsOf db'
        (createTxWithDetails db businessId .Income (some "Sales")
          (items.foldl (fun s item => s + item.quantity * item.sellingPrice) 0)
          (some (desc.getD "Product sale")) .complete
          (items.map fun item => ⟨item.productId, item.quantity, item.sellingPrice⟩)).2.id,
        (findProduct db' d.product_id).isSome = true := by
      rw [hdts]
      intro d hd
      obtain ⟨item, hmem, hpid⟩ := saleLines_pid d hd
      rw [hpid, hsome' item.productId]
      obtain ⟨p, hp, _⟩ := validateSale_none hv item hmem
      rw [hp]
      rfl
    obtain ⟨db5, hdel, hstock5, hbal5, hbalne5⟩ :=
      deleteTransaction_noFail_income db' businessId
        (createTxWithDetails db businessId .Income (some "Sales")
          (items.foldl (fun s item => s + item.quantity * item.sellingPrice) 0)
          (some (desc.getD "Product sale")) .complete
          (items.map fun item => ⟨item.productId, item.quantity, item.sellingPrice⟩)).2
        bP hfindT (createTx_business_id db businessId .Income (some "Sales")
          (items.foldl (fun s item => s + item.quantity * item.sellingPrice) 0)
          (some (desc.getD "Product sale")) .complete
          (items.map fun item => ⟨item.productId, item.quantity, item.sellingPrice⟩))
        (createTx_status db businessId .Income (some "Sales")
          (items.foldl (fun s item => s + item.quantity * item.sellingPrice) 0)
          (some (desc.getD "Product sale")) .complete
          (items.map fun item => ⟨item.productId, item.quantity, item.sellingPrice⟩))
        (createTx_ttype db businessId .Income (some "Sales")
          (items.foldl (fun s item => s + item.quantity * item.sellingPrice) 0)
          (some (desc.getD "Product sale")) .complete
          (items.map fun item => ⟨item.productId, item.quantity, item.sellingPrice⟩))
        hfbP hexd
    simp only [hdel]
    refine ⟨trivial, ?_, ?_⟩
    · intro pid
      rw [hstock5 pid, hdts, detailQty_saleLines, hstock' pid, map_sub_then_add]
    · intro bid
      by_cases hbid : bid = businessId
      · rw [hbid, hbal5, hbPcb, createTx_amount]
        have hbdb : balanceOf db businessId = some b.current_balance := by
          unfold balanceOf
          rw [hfb]
          rfl
        rw [hbdb, add_sub_cancel_right]
      · rw [hbalne5 bid hbid, hbalne' bid hbid]

/-- Witness for C5: the spec's concrete round trip — sale of 5 at
75,000 from stock 12 / balance 5,000,000, then delete — ends with stock
12 and balance 5,000,000 again. -/
theorem claim_C5_witness :
    WF fxDb12 ∧
    fxRunSale12.tx = some ⟨1, 1, .Income, some "Sales", 375000, some "Product sale",
      .complete, none, false⟩ ∧
    (deleteTransaction Env.noFail fxRunSale12.db 1 1).success = true ∧
    stockOf (deleteTransaction Env.noFail fxRunSale12.db 1 1).db 1 = stockOf fxDb12 1 ∧
    balanceOf (deleteTransaction Env.noFail fxRunSale12.db 1 1).db 1 = balanceOf fxDb12 1 ∧
    stockOf fxDb12 1 = some 12 ∧ balanceOf fxDb12 1 = some 5000000 := by
  have h := claim_C5_delete_inverts_sale fxDb12 1 [⟨1, 5, 75000⟩] none
    ⟨1, 1, .Income, some "Sales", 375000, some "Product sale", .complete, none, false⟩
    (by decide) (by decide)
  exact ⟨by decide, by decide, h.1, h.2.1 1, h.2.2 1, by decide, by decide⟩

/-- Witness for C6 on the concrete pending transaction store. -/
theorem claim_C6_witness :
    findTransaction fxDbT 7 = some fxTxPending ∧ fxTxPending.business_id = 1 ∧
    findTransaction (cancelTransaction fxDbT 1 7).db 7 =
      some { fxTxPending with status := .cancel } ∧
    (cancelTransaction fxDbT 1 7).db.businesses = fxDbT.businesses :=
  ⟨by decide, rfl,
   (claim_C6_cancel_only_status fxDbT 1 7 fxTxPending (by decide) rfl).2.2.2.2.1,
   (claim_C6_cancel_only_status fxDbT 1 7 fxTxPending (by decide) rfl).2.1⟩

end NusaBiz
